import Mathlib

/-!
A shallow embedding of the cat-coloring program (src/main.py) together with
the ANSI-stripping helper of its test suite (src/test_main.py).

Text is modelled as List Char.  Python's per-character loops become
structurally recursive functions; dictionary lookups in CAT_COLORS return
Option Nat, with a missing key (Python's KeyError, the spec's UnknownColor)
modelled as none, so every pattern function returns Option (List Char).
Real arithmetic in the portrait patterns is modelled exactly over ℚ.
-/

/-- The ASCII escape character, written by the source as a 033 octal literal. -/
def escCh : Char := Char.ofNat 27

/-- RESET from the source: the ANSI reset sequence ESC [ 0 m. -/
def resetSeq : List Char := [escCh, '[', '0', 'm']

/-- Decimal digit character for a value below ten. -/
def digitChar (n : Nat) : Char := Char.ofNat (48 + n)

/-- Fuel-driven accumulator loop producing the decimal digits of a number,
mirroring how a nonnegative Python int renders inside an f-string. -/
def natDigitsAux : Nat → Nat → List Char → List Char
  | 0, _, acc => acc
  | fuel + 1, n, acc =>
    if n < 10 then digitChar n :: acc
    else natDigitsAux fuel (n / 10) (digitChar (n % 10) :: acc)

/-- Decimal digits of a natural number; the fuel n + 1 always suffices. -/
def natDigits (n : Nat) : List Char := natDigitsAux (n + 1) n []

/-- The fixed parameter prefix 38;5; of an ANSI 256-color foreground code. -/
def csPrefix : List Char := ['3', '8', ';', '5', ';']

/-- Full parameter run 38;5;N of an ANSI 256-color foreground code. -/
def csParam (n : Nat) : List Char := csPrefix ++ natDigits n

/-- The escape string built by the source's _color helper. -/
def colorSeq (n : Nat) : List Char := escCh :: '[' :: (csParam n ++ ['m'])

/-- One colored character: color code, the character itself, then RESET. -/
def wrapColor (n : Nat) (c : Char) : List Char := colorSeq n ++ c :: resetSeq

/-- A whole line (or the whole content) wrapped in a single color/RESET pair. -/
def wrapLine (n : Nat) (l : List Char) : List Char := colorSeq n ++ l ++ resetSeq

/-- Emission of one character, given the per-character color decision:
none means the character is passed through bare. -/
def emit (o : Option Nat) (c : Char) : List Char :=
  match o with
  | none => [c]
  | some n => wrapColor n c

/-- CAT_COLORS from the source: color names with their ANSI 256-color numbers.
The source stores the rendered escape strings; the embedding keeps the numeric
code and renders it with colorSeq wherever the source interpolates the string. -/
def CAT_COLORS : List (String × Nat) := [
  ("black", 232), ("white", 255), ("orange", 208), ("ginger", 166),
  ("cream", 223), ("brown", 130), ("chocolate", 94), ("gray", 245),
  ("blue_gray", 67), ("lilac", 139), ("cinnamon", 137), ("fawn", 180),
  ("silver", 250), ("dark_orange", 202), ("light_gray", 249), ("dark_gray", 239),
  ("golden", 178), ("auburn", 124), ("forest_green", 34), ("pink_red", 204)]

/-- Dictionary lookup CAT_COLORS[name]; a missing key is modelled as none. -/
def lookupColor (name : String) : Option Nat :=
  (CAT_COLORS.find? (fun p => p.1 == name)).map (fun p => p.2)

/-- Python str.split on a newline: the result always has at least one piece. -/
def splitOnNl : List Char → List (List Char)
  | [] => [[]]
  | c :: cs =>
    match splitOnNl cs with
    | [] => [[]]
    | l :: ls => if c = '\n' then [] :: l :: ls else (c :: l) :: ls

/-- Python newline join of a list of lines. -/
def joinNl : List (List Char) → List Char
  | [] => []
  | [l] => l
  | l :: l₂ :: ls => l ++ '\n' :: joinNl (l₂ :: ls)

/-- ASCII whitespace as recognized by Python str.strip and str.lstrip.
The exotic Unicode space characters Python also strips never occur in the
program's assets and are omitted. -/
def pyIsSpace (c : Char) : Bool :=
  c = ' ' || c = '\t' || c = '\n' || c = '\r' || c = Char.ofNat 11 || c = Char.ofNat 12

/-- Python "not line.strip()": the line is entirely whitespace. -/
def isBlankLine (l : List Char) : Bool := l.all pyIsSpace

/-- Python len(line) - len(line.lstrip()): leading whitespace count. -/
def leadCount (l : List Char) : Nat := (l.takeWhile pyIsSpace).length

/-- Python abs(j - center) on naturals. -/
def natDist (a b : Nat) : Nat := max a b - min a b

/-- Membership in the character class of digits and semicolons, the class
appearing in the test suite's ANSI_PATTERN regular expression. -/
def isCs (c : Char) : Bool := c.isDigit || c = ';'

/-- Recognizer for the parameter run of a 256-color foreground code 38;5;N. -/
def checkColorParam (ds : List Char) : Bool :=
  (ds.take 5 == csPrefix) && (!(ds.drop 5).isEmpty) && (ds.drop 5).all Char.isDigit

/-- Active-color update performed by a complete escape sequence ESC [ ds m:
the reset code clears the active color, a 256-color foreground code sets it
(recorded as its raw parameter run), anything else leaves it alone. -/
def updateState (ds : List Char) (s : Option (List Char)) : Option (List Char) :=
  if ds = ['0'] then none
  else if checkColorParam ds then some ds
  else s

/-- Parsing mode of the escape-sequence scanner: in plain text, just after
an ESC, or inside ESC [ with the accumulated (reversed) parameter run. -/
inductive ScanMode where
  | normal : ScanMode
  | afterEsc : ScanMode
  | inBody : List Char → ScanMode

/-- Characters a partial, failed escape-sequence parse must emit again,
paired with the color active where the failed parse began. -/
def flushMode (s : Option (List Char)) : ScanMode → List (Char × Option (List Char))
  | .normal => []
  | .afterEsc => [(escCh, s)]
  | .inBody ds => (escCh, s) :: ('[', s) :: ds.reverse.map (fun d => (d, s))

/-- One-pass scanner implementing the test suite's ANSI regular expression
(ESC, an opening bracket, a nonempty run of digits or semicolons, then m)
with re.sub's leftmost-match semantics.  Every character the regex would not
consume is paired with the color parameter active at that point; every
matched escape sequence is dropped while the active color is updated. -/
def scanGo (s : Option (List Char)) (m : ScanMode) : List Char → List (Char × Option (List Char))
  | [] => flushMode s m
  | c :: cs =>
    match m with
    | .normal =>
      if c = escCh then scanGo s .afterEsc cs
      else (c, s) :: scanGo s .normal cs
    | .afterEsc =>
      if c = '[' then scanGo s (.inBody []) cs
      else if c = escCh then (escCh, s) :: scanGo s .afterEsc cs
      else (escCh, s) :: (c, s) :: scanGo s .normal cs
    | .inBody ds =>
      if isCs c then scanGo s (.inBody (c :: ds)) cs
      else if c == 'm' && !ds.isEmpty then scanGo (updateState ds.reverse s) .normal cs
      else
        (escCh, s) :: ('[', s) ::
          (ds.reverse.map (fun d => (d, s)) ++
            (if c = escCh then scanGo s .afterEsc cs
             else (c, s) :: scanGo s .normal cs))

/-- Scan a full text with a given starting active color. -/
def scanAnsi (s : Option (List Char)) (l : List Char) : List (Char × Option (List Char)) :=
  scanGo s .normal l

/-- The test suite's _strip_ansi: remove every match of ANSI_PATTERN. -/
def stripAnsi (l : List Char) : List Char := (scanAnsi none l).map (fun p => p.1)

/-- Per-character loop of a pattern; j is the enumerate index.  The decision
function yields none on a failed color lookup, some none for a character
passed through bare, and some (some code) for a colored character. -/
def renderLineGo (dec : Nat → Char → Option (Option Nat)) : Nat → List Char → Option (List Char)
  | _, [] => some []
  | j, c :: cs => do
    let o ← dec j c
    let rest ← renderLineGo dec (j + 1) cs
    pure (emit o c ++ rest)

/-- The character/color-parameter pairs the scanner recovers from a rendered
line, computed straight from the decision function. -/
def linePairsGo (dec : Nat → Char → Option (Option Nat)) :
    Nat → List Char → Option (List (Char × Option (List Char)))
  | _, [] => some []
  | j, c :: cs => do
    let o ← dec j c
    let rest ← linePairsGo dec (j + 1) cs
    pure ((c, o.map csParam) :: rest)

/-- Line loop shared by the patterns; i is the enumerate index of the line. -/
def mapLinesGo (f : Nat → List Char → Option (List Char)) : Nat → List (List Char) → Option (List (List Char))
  | _, [] => some []
  | i, l :: ls => do
    let o ← f i l
    let rest ← mapLinesGo f (i + 1) ls
    pure (o :: rest)

/-- Indexed map, used to state the exact shape of rendered output. -/
def mapIdx {α β : Type} (g : Nat → α → β) : Nat → List α → List β
  | _, [] => []
  | k, a :: rest => g k a :: mapIdx g (k + 1) rest

/-- Membership test for the space/tab/newline whitespace string used by the
simple per-character patterns. -/
def isWs3 (c : Char) : Bool := c = ' ' || c = '\t' || c = '\n'

/-- Membership test for the space/tab whitespace string used by the portrait
patterns. -/
def isWs2 (c : Char) : Bool := c = ' ' || c = '\t'

/-- The solid pattern: the whole content wrapped in one color/RESET pair. -/
def solid_pattern (color : String) (content : List Char) : Option (List Char) :=
  (lookupColor color).map (fun n => colorSeq n ++ content ++ resetSeq)

/-- Per-character decision of the bicolor pattern. -/
def bicolor_dec (c1 c2 : String) (i j : Nat) (c : Char) : Option (Option Nat) :=
  if isWs3 c then some none
  else if (i + j) % 7 < 4 then (lookupColor c1).map some
  else (lookupColor c2).map some

/-- The bicolor pattern. -/
def bicolor_pattern (c1 c2 : String) (content : List Char) : Option (List Char) :=
  (mapLinesGo (fun i l => renderLineGo (bicolor_dec c1 c2 i) 0 l) 0 (splitOnNl content)).map joinNl

/-- The tabby pattern: every third line wholly stripe-colored, the rest base. -/
def tabby_pattern (base stripe : String) (content : List Char) : Option (List Char) :=
  (mapLinesGo
    (fun i l => (lookupColor (if i % 3 = 0 then stripe else base)).map (fun n => wrapLine n l))
    0 (splitOnNl content)).map joinNl

/-- The calico patch color for a row band: colors[(i // 5) % 3]. -/
def calico_patch (i : Nat) : String :=
  if (i / 5) % 3 = 0 then "white" else if (i / 5) % 3 = 1 then "orange" else "black"

/-- Per-character decision of the calico pattern. -/
def calico_dec (i j : Nat) (c : Char) : Option (Option Nat) :=
  if isWs3 c then some none
  else if j % 11 < 4 then (lookupColor "white").map some
  else if j % 11 < 7 then (lookupColor "orange").map some
  else (lookupColor (calico_patch i)).map some

/-- The calico pattern. -/
def calico_pattern (content : List Char) : Option (List Char) :=
  (mapLinesGo (fun i l => renderLineGo (calico_dec i) 0 l) 0 (splitOnNl content)).map joinNl

/-- Per-character decision of the tortoiseshell pattern. -/
def tortoiseshell_dec (i j : Nat) (c : Char) : Option (Option Nat) :=
  if isWs3 c then some none
  else if (i * 3 + j * 7) % 5 < 2 then (lookupColor "orange").map some
  else if (i * 3 + j * 7) % 5 < 4 then (lookupColor "black").map some
  else (lookupColor "ginger").map some

/-- The tortoiseshell pattern. -/
def tortoiseshell_pattern (content : List Char) : Option (List Char) :=
  (mapLinesGo (fun i l => renderLineGo (tortoiseshell_dec i) 0 l) 0 (splitOnNl content)).map joinNl

/-- The colorpoint pattern: whole lines wrapped, points color exactly when
i < total // 5 or i > total * 4 // 5. -/
def colorpoint_pattern (body points : String) (content : List Char) : Option (List Char) :=
  let lines := splitOnNl content
  let total := lines.length
  (mapLinesGo
    (fun i l =>
      (lookupColor (if i < total / 5 || total * 4 / 5 < i then points else body)).map
        (fun n => wrapLine n l))
    0 lines).map joinNl

/-- The source's lighter dictionary with its silver default, evaluated when
the smoke pattern is constructed. -/
def smoke_light (c : String) : String :=
  if c = "black" then "dark_gray"
  else if c = "gray" then "light_gray"
  else if c = "blue_gray" then "silver" else "silver"

/-- Per-character decision of the smoke pattern. -/
def smoke_dec (base light : String) (j : Nat) (c : Char) : Option (Option Nat) :=
  if isWs3 c then some none
  else if j % 4 = 0 then (lookupColor light).map some
  else (lookupColor base).map some

/-- The smoke pattern. -/
def smoke_pattern (color : String) (content : List Char) : Option (List Char) :=
  (mapLinesGo (fun _ l => renderLineGo (smoke_dec color (smoke_light color)) 0 l)
    0 (splitOnNl content)).map joinNl

/-- Per-character decision of the plain tuxedo pattern with its chest zone
(total // 4 < i < total * 3 // 4) and center columns (len // 3 < j < len * 2 // 3). -/
def tuxedo_dec (total i len j : Nat) (c : Char) : Option (Option Nat) :=
  if isWs3 c then some none
  else if (total / 4 < i ∧ i < total * 3 / 4) ∧ (len / 3 < j ∧ j < len * 2 / 3) then
    (lookupColor "white").map some
  else (lookupColor "black").map some

/-- The plain tuxedo pattern. -/
def tuxedo_pattern (content : List Char) : Option (List Char) :=
  let lines := splitOnNl content
  let total := lines.length
  (mapLinesGo (fun i l => renderLineGo (tuxedo_dec total i l.length) 0 l) 0 lines).map joinNl

/-- The is_back_color computation of the tuxedo-style portrait generator,
with the source's float arithmetic modelled exactly over ℚ. -/
def iggyIsBack (rl dist clen : ℚ) : Bool :=
  if rl < 8/100 then true
  else if rl < 14/100 then decide (dist > clen * (8/100 + (rl - 8/100) * (5/10)))
  else if rl < 22/100 then decide (dist > clen * (12/100 + (rl - 14/100) * (8/10)))
  else if rl < 34/100 then decide (dist > clen * (35/100))
  else if rl < 54/100 then decide (dist > clen * (25/100))
  else if rl < 72/100 then decide (dist > clen * (30/100))
  else if rl < 90/100 then decide (dist > clen * (40/100))
  else decide (dist > clen * (45/100))

/-- Per-character decision of the tuxedo-style portrait generator. -/
def iggy_dec (c1 c2 : String) (total i lead clen j : Nat) (c : Char) : Option (Option Nat) :=
  if isWs2 c then some none
  else if iggyIsBack ((i : ℚ) / (total : ℚ)) ((natDist j (lead + clen / 2) : ℚ)) (clen : ℚ) then
    (lookupColor c1).map some
  else (lookupColor c2).map some

/-- The tuxedo-style portrait generator (the primary portrait pattern). -/
def iggy_pattern (c1 c2 : String) (content : List Char) : Option (List Char) :=
  let lines := splitOnNl content
  let total := lines.length
  (mapLinesGo
    (fun i l =>
      if isBlankLine l then some l
      else renderLineGo (iggy_dec c1 c2 total i (leadCount l) (l.length - leadCount l)) 0 l)
    0 lines).map joinNl

/-- Color choice of the warm gradient portrait. -/
def lucyColorName (rl dist clen : ℚ) : String :=
  if rl < 15/100 then (if dist > clen * (3/10) then "chocolate" else "brown")
  else if rl < 35/100 then
    (if dist > clen * (35/100) then "chocolate"
     else if dist > clen * (2/10) then "brown" else "ginger")
  else if rl < 65/100 then
    (if dist > clen * (35/100) then "brown"
     else if dist > clen * (2/10) then "ginger" else "golden")
  else if rl < 85/100 then
    (if dist > clen * (4/10) then "brown"
     else if dist > clen * (25/100) then "orange" else "golden")
  else (if dist > clen * (35/100) then "brown" else "ginger")

/-- Per-character decision of the warm gradient portrait. -/
def lucy_dec (total i lead clen j : Nat) (c : Char) : Option (Option Nat) :=
  if isWs2 c then some none
  else
    (lookupColor
      (lucyColorName ((i : ℚ) / (total : ℚ)) ((natDist j (lead + clen / 2) : ℚ)) (clen : ℚ))).map some

/-- The warm gradient portrait pattern. -/
def lucy_pattern (content : List Char) : Option (List Char) :=
  let lines := splitOnNl content
  let total := lines.length
  (mapLinesGo
    (fun i l =>
      if isBlankLine l then some l
      else renderLineGo (lucy_dec total i (leadCount l) (l.length - leadCount l)) 0 l)
    0 lines).map joinNl

/-- Color choice of the silver tabby portrait. -/
def cassandraColorName (i : Nat) (rl dist clen : ℚ) : String :=
  let isStripe : Bool := decide (i % 4 < 2)
  if rl < 12/100 then (if isStripe then "dark_gray" else "gray")
  else if rl < 30/100 then
    (if dist > clen * (35/100) then (if isStripe then "dark_gray" else "gray")
     else if dist > clen * (2/10) then (if isStripe then "gray" else "silver")
     else (if isStripe && decide (i % 6 < 2) then "fawn" else "silver"))
  else if rl < 55/100 then
    (if dist > clen * (4/10) then (if isStripe then "dark_gray" else "gray")
     else if dist > clen * (25/100) then (if isStripe then "gray" else "silver")
     else (if isStripe then "light_gray" else "silver"))
  else if rl < 75/100 then
    (if dist > clen * (35/100) then (if isStripe then "dark_gray" else "gray")
     else if dist > clen * (2/10) then
       (if i % 7 < 2 then "fawn" else if isStripe then "gray" else "silver")
     else "silver")
  else if rl < 90/100 then (if isStripe then "dark_gray" else "silver")
  else
    (if dist < clen * (15/100) then "white"
     else if isStripe then "gray" else "silver")

/-- Per-character decision of the silver tabby portrait. -/
def cassandra_dec (total i lead clen j : Nat) (c : Char) : Option (Option Nat) :=
  if isWs2 c then some none
  else
    (lookupColor
      (cassandraColorName i ((i : ℚ) / (total : ℚ)) ((natDist j (lead + clen / 2) : ℚ)) (clen : ℚ))).map some

/-- The silver tabby portrait pattern. -/
def cassandra_pattern (content : List Char) : Option (List Char) :=
  let lines := splitOnNl content
  let total := lines.length
  (mapLinesGo
    (fun i l =>
      if isBlankLine l then some l
      else renderLineGo (cassandra_dec total i (leadCount l) (l.length - leadCount l)) 0 l)
    0 lines).map joinNl

/-- Color choice of the silver and white bicolor portrait. -/
def persephoneColorName (rl dist clen : ℚ) : String :=
  if rl < 10/100 then (if dist > clen * (3/10) then "dark_gray" else "gray")
  else if rl < 25/100 then
    (if dist > clen * (35/100) then "dark_gray"
     else if dist > clen * (2/10) then "gray" else "silver")
  else if rl < 45/100 then
    (if dist > clen * (35/100) then "gray"
     else if dist > clen * (2/10) then "silver" else "white")
  else if rl < 70/100 then
    (if dist > clen * (4/10) then "gray"
     else if dist > clen * (25/100) then "light_gray" else "white")
  else if rl < 88/100 then
    (if dist > clen * (35/100) then "gray"
     else if dist > clen * (2/10) then "silver" else "white")
  else (if dist > clen * (4/10) then "silver" else "white")

/-- Per-character decision of the silver and white bicolor portrait. -/
def persephone_dec (total i lead clen j : Nat) (c : Char) : Option (Option Nat) :=
  if isWs2 c then some none
  else
    (lookupColor
      (persephoneColorName ((i : ℚ) / (total : ℚ)) ((natDist j (lead + clen / 2) : ℚ)) (clen : ℚ))).map some

/-- The silver and white bicolor portrait pattern. -/
def persephone_pattern (content : List Char) : Option (List Char) :=
  let lines := splitOnNl content
  let total := lines.length
  (mapLinesGo
    (fun i l =>
      if isBlankLine l then some l
      else renderLineGo (persephone_dec total i (leadCount l) (l.length - leadCount l)) 0 l)
    0 lines).map joinNl

/-- The blank braille filler character of the heart-overlay asset. -/
def blank_braille : Char := Char.ofNat 10240

/-- The fixed row-to-minimum-column table of the heart-overlay pattern. -/
def heart_boundaries (i : Nat) : Option Nat :=
  if i = 4 then some 28 else if i = 5 then some 28 else if i = 6 then some 28
  else if i = 7 then some 30 else if i = 8 then some 32 else none

/-- Per-character decision of the heart-overlay pattern. -/
def jenny_dec (i j : Nat) (c : Char) : Option (Option Nat) :=
  if c = blank_braille then some none
  else
    match heart_boundaries i with
    | some b =>
      if b ≤ j then (lookupColor "pink_red").map some
      else (lookupColor "forest_green").map some
    | none => (lookupColor "forest_green").map some

/-- The heart-overlay pattern. -/
def jennycatto_pattern (content : List Char) : Option (List Char) :=
  (mapLinesGo (fun i l => renderLineGo (jenny_dec i) 0 l) 0 (splitOnNl content)).map joinNl

/-- Tag identifying which constructor of the source builds a pattern
function, carrying the bound color parameters. -/
inductive PatternId where
  | solid : String → PatternId
  | bicolor : String → String → PatternId
  | tabby : String → String → PatternId
  | calico : PatternId
  | tortoiseshell : PatternId
  | colorpoint : String → String → PatternId
  | smoke : String → PatternId
  | tuxedo : PatternId
  | iggy : String → String → PatternId
  | lucy : PatternId
  | cassandra : PatternId
  | persephone : PatternId
  | jennycatto : PatternId
deriving DecidableEq

/-- Dispatch a pattern tag to the pattern function it denotes. -/
def applyPattern : PatternId → List Char → Option (List Char)
  | .solid c => solid_pattern c
  | .bicolor c1 c2 => bicolor_pattern c1 c2
  | .tabby b s => tabby_pattern b s
  | .calico => calico_pattern
  | .tortoiseshell => tortoiseshell_pattern
  | .colorpoint b p => colorpoint_pattern b p
  | .smoke c => smoke_pattern c
  | .tuxedo => tuxedo_pattern
  | .iggy c1 c2 => iggy_pattern c1 c2
  | .lucy => lucy_pattern
  | .cassandra => cassandra_pattern
  | .persephone => persephone_pattern
  | .jennycatto => jennycatto_pattern

/-- The fixed registry built inside get_random_pattern, in source order;
random selection draws uniformly from this list. -/
def random_patterns : List (String × PatternId) := [
  ("solid_black", .solid "black"),
  ("solid_white", .solid "white"),
  ("solid_orange", .solid "orange"),
  ("solid_gray", .solid "gray"),
  ("solid_cream", .solid "cream"),
  ("solid_brown", .solid "brown"),
  ("solid_chocolate", .solid "chocolate"),
  ("solid_blue_gray", .solid "blue_gray"),
  ("solid_lilac", .solid "lilac"),
  ("solid_cinnamon", .solid "cinnamon"),
  ("solid_fawn", .solid "fawn"),
  ("bicolor_black_white", .bicolor "black" "white"),
  ("bicolor_black_white_tuxedo", .iggy "black" "white"),
  ("bicolor_black_white_tuxedo_invert", .iggy "white" "black"),
  ("bicolor_orange_white", .bicolor "orange" "white"),
  ("bicolor_orange_white_tuxedo", .iggy "orange" "white"),
  ("bicolor_orange_white_tuxedo_invert", .iggy "white" "orange"),
  ("bicolor_gray_white", .bicolor "gray" "white"),
  ("bicolor_gray_white_tuxedo", .iggy "gray" "white"),
  ("bicolor_gray_white_tuxedo_invert", .iggy "white" "gray"),
  ("bicolor_brown_white", .bicolor "brown" "white"),
  ("bicolor_brown_white_tuxedo", .iggy "brown" "white"),
  ("bicolor_brown_white_tuxedo_invert", .iggy "white" "brown"),
  ("tabby_brown", .tabby "brown" "chocolate"),
  ("tabby_orange", .tabby "orange" "ginger"),
  ("tabby_gray", .tabby "gray" "dark_gray"),
  ("tabby_silver", .tabby "silver" "gray"),
  ("tabby_cream", .tabby "cream" "fawn"),
  ("calico", .calico),
  ("tortoiseshell", .tortoiseshell),
  ("tuxedo", .tuxedo),
  ("colorpoint_seal", .colorpoint "cream" "chocolate"),
  ("colorpoint_blue", .colorpoint "white" "blue_gray"),
  ("colorpoint_lilac", .colorpoint "white" "lilac"),
  ("smoke_black", .smoke "black"),
  ("smoke_gray", .smoke "gray"),
  ("smoke_blue", .smoke "blue_gray")]

/-- The positional portrait generators of the source. -/
def isPortraitGen : PatternId → Bool
  | .iggy _ _ => true
  | .lucy => true
  | .cassandra => true
  | .persephone => true
  | .jennycatto => true
  | _ => false

/-- The simple geometric pattern constructors of the source. -/
def isSimpleGeometric : PatternId → Bool
  | .solid _ => true
  | .bicolor _ _ => true
  | .tabby _ _ => true
  | .calico => true
  | .tortoiseshell => true
  | .colorpoint _ _ => true
  | .smoke _ => true
  | .tuxedo => true
  | _ => false

/-- The family name prefixes enumerated by the spec and the test suite. -/
def familyPrefixes : List String :=
  ["solid_", "bicolor_", "tabby_", "calico", "tortoiseshell", "tuxedo", "colorpoint_", "smoke_"]

/-- Whether a registry name carries one of the family prefixes. -/
def hasFamilyPrefix (name : String) : Bool :=
  familyPrefixes.any (fun p => p.data.isPrefixOf name.data)

/-- The color names a pattern tag can ever pass to lookupColor. -/
def colorNamesOf : PatternId → List String
  | .solid c => [c]
  | .bicolor c1 c2 => [c1, c2]
  | .tabby b s => [b, s]
  | .calico => ["white", "orange", "black"]
  | .tortoiseshell => ["orange", "black", "ginger"]
  | .colorpoint b p => [b, p]
  | .smoke c => [c, smoke_light c]
  | .tuxedo => ["white", "black"]
  | .iggy c1 c2 => [c1, c2]
  | .lucy => []
  | .cassandra => []
  | .persephone => []
  | .jennycatto => []

/-- Whether all bound color parameters of a pattern tag are table keys. -/
def colorsOk (p : PatternId) : Bool :=
  (colorNamesOf p).all (fun n => (lookupColor n).isSome)

/-- The pattern kinds whose rendering loop tests each character against the
space/tab whitespace set before coloring it. -/
def wsSafeKind : PatternId → Bool
  | .bicolor _ _ => true
  | .calico => true
  | .tortoiseshell => true
  | .smoke _ => true
  | .tuxedo => true
  | .iggy _ _ => true
  | .lucy => true
  | .cassandra => true
  | .persephone => true
  | _ => false

/-- A text containing no ASCII escape character. -/
def escFree (l : List Char) : Prop := ∀ c ∈ l, c ≠ escCh

instance (l : List Char) : Decidable (escFree l) :=
  inferInstanceAs (Decidable (∀ c ∈ l, c ≠ escCh))

/-- The effective chest/back distance threshold of the tuxedo-style portrait
generator, as a fraction of content_len, read off the branches of its
is_back_color computation. -/
def iggyThreshold (rl : ℚ) : ℚ :=
  if rl < 8/100 then 0
  else if rl < 14/100 then 8/100 + (rl - 8/100) * (5/10)
  else if rl < 22/100 then 12/100 + (rl - 14/100) * (8/10)
  else if rl < 34/100 then 35/100
  else if rl < 54/100 then 25/100
  else if rl < 72/100 then 30/100
  else if rl < 90/100 then 40/100
  else 45/100

/-- Row predicate modelled from the claim wording for the plain tuxedo
pattern: a row in the middle half of the image, with the boundaries read as
the source computes them (strictly between total // 4 and total * 3 // 4). -/
def middleHalfRow (total i : Nat) : Prop := total / 4 < i ∧ i < total * 3 / 4

/-- Column predicate modelled from the claim wording: a column in the middle
third of the row's length (strictly between len // 3 and len * 2 // 3). -/
def middleThirdCol (len j : Nat) : Prop := len / 3 < j ∧ j < len * 2 / 3

instance (total i : Nat) : Decidable (middleHalfRow total i) :=
  inferInstanceAs (Decidable (total / 4 < i ∧ i < total * 3 / 4))

instance (len j : Nat) : Decidable (middleThirdCol len j) :=
  inferInstanceAs (Decidable (len / 3 < j ∧ j < len * 2 / 3))

/-- Claim-side color choice for the plain tuxedo pattern: white (code 255)
exactly on non-whitespace characters in the middle half of the rows and the
middle third of the row's columns, black (code 232) on every other
non-whitespace character. -/
def tuxedoSpecColor (total i len j : Nat) (c : Char) : Option Nat :=
  if isWs3 c then none
  else if middleHalfRow total i ∧ middleThirdCol len j then some 255
  else some 232

/-- Rendering of one line from a positional color choice. -/
def specRenderLine (h : Nat → Char → Option Nat) (l : List Char) : List Char :=
  List.flatten (mapIdx (fun j c => emit (h j c) c) 0 l)

/-- Claim-side rendering of a whole text for the plain tuxedo pattern. -/
def tuxedoSpecRender (content : List Char) : List Char :=
  let lines := splitOnNl content
  let total := lines.length
  joinNl (mapIdx (fun i l => specRenderLine (tuxedoSpecColor total i l.length) l) 0 lines)

/-- The concrete scenario of the claim: a 20-line block of 29 identical
non-whitespace characters. -/
def tuxedoScenario : List Char := joinNl (List.replicate 20 (List.replicate 29 'M'))

/-- Claim-side row band for the colorpoint pattern: points on the top fifth
of row indexes and on the bottom fifth (the last total / 5 row indexes). -/
def colorpointClaimPick (total i : Nat) : Bool :=
  decide (i < total / 5) || decide (total - total / 5 ≤ i)

/-- Claim-side rendering of the colorpoint pattern from resolved codes. -/
def colorpointClaimRender (bc pc : Nat) (content : List Char) : List Char :=
  let lines := splitOnNl content
  let total := lines.length
  joinNl (mapIdx (fun i l => wrapLine (if colorpointClaimPick total i then pc else bc) l) 0 lines)

/-- Code-side row band of the colorpoint pattern, as the source computes it. -/
def colorpointCodePick (total i : Nat) : Bool :=
  decide (i < total / 5) || decide (total * 4 / 5 < i)

/-- Code-side rendering of the colorpoint pattern from resolved codes. -/
def colorpointCodeRender (bc pc : Nat) (content : List Char) : List Char :=
  let lines := splitOnNl content
  let total := lines.length
  joinNl (mapIdx (fun i l => wrapLine (if colorpointCodePick total i then pc else bc) l) 0 lines)

/-- Claim-side color choice for the heart-overlay pattern: pink/red
(code 204) on rows 4 through 8 at or beyond that row's minimum column
(28, 28, 28, 30, 32), forest green (code 34) on every other character, and
the blank braille filler always bare. -/
def jennySpecColor (i j : Nat) (c : Char) : Option Nat :=
  if c = blank_braille then none
  else if (i = 4 ∧ 28 ≤ j) ∨ (i = 5 ∧ 28 ≤ j) ∨ (i = 6 ∧ 28 ≤ j) ∨
          (i = 7 ∧ 30 ≤ j) ∨ (i = 8 ∧ 32 ≤ j) then some 204
  else some 34

/-- Claim-side rendering of a whole text for the heart-overlay pattern. -/
def jennySpecRender (content : List Char) : List Char :=
  joinNl (mapIdx (fun i l => specRenderLine (jennySpecColor i) l) 0 (splitOnNl content))

/-- Parser for the wrapper syntax ESC [ 3 8 ; 5 ; N m of a rendered color
code, recovering the numeric value, as the test suite's regular expression
and int conversion do. -/
def digitsVal (acc : Nat) : List Char → Option Nat
  | ['m'] => some acc
  | c :: cs => if c.isDigit then digitsVal (acc * 10 + (c.toNat - 48)) cs else none
  | [] => none

/-- Parse a full rendered color escape string into its numeric code. -/
def wrapperParse (s : List Char) : Option Nat :=
  match s with
  | a0 :: a1 :: a2 :: a3 :: a4 :: a5 :: a6 :: rest =>
    if a0 = escCh ∧ a1 = '[' ∧ a2 = '3' ∧ a3 = '8' ∧ a4 = ';' ∧ a5 = '5' ∧ a6 = ';' then
      digitsVal 0 rest
    else none
  | _ => none

/-! ### Facts about decimal digits and rendered escape sequences -/

theorem digitChar_isDigit (m : Nat) (h : m < 10) : (digitChar m).isDigit = true := by
  interval_cases m <;> decide

theorem natDigitsAux_mem (fuel n : Nat) (acc : List Char) (c : Char)
    (hc : c ∈ natDigitsAux fuel n acc) : c.isDigit = true ∨ c ∈ acc := by
  induction fuel generalizing n acc with
  | zero => exact Or.inr hc
  | succ fuel ih =>
    unfold natDigitsAux at hc
    split at hc
    · rcases List.mem_cons.mp hc with h | h
      · exact Or.inl (h ▸ digitChar_isDigit n (by omega))
      · exact Or.inr h
    · rcases ih _ _ hc with h | h
      · exact Or.inl h
      · rcases List.mem_cons.mp h with h | h
        · exact Or.inl (h ▸ digitChar_isDigit (n % 10) (Nat.mod_lt _ (by omega)))
        · exact Or.inr h

theorem natDigits_isDigit (n : Nat) (c : Char) (hc : c ∈ natDigits n) : c.isDigit = true := by
  rcases natDigitsAux_mem (n + 1) n [] c hc with h | h
  · exact h
  · simp at h

theorem natDigitsAux_ne_nil (fuel n : Nat) (acc : List Char) (hacc : acc ≠ []) :
    natDigitsAux fuel n acc ≠ [] := by
  induction fuel generalizing n acc with
  | zero => exact hacc
  | succ fuel ih =>
    unfold natDigitsAux
    split
    · simp
    · exact ih _ _ (by simp)

theorem natDigits_ne_nil (n : Nat) : natDigits n ≠ [] := by
  unfold natDigits natDigitsAux
  split
  · simp
  · exact natDigitsAux_ne_nil _ _ _ (by simp)

theorem csParam_cs (n : Nat) (c : Char) (hc : c ∈ csParam n) : isCs c = true := by
  unfold csParam csPrefix at hc
  rcases List.mem_append.mp hc with h | h
  · fin_cases h <;> decide
  · unfold isCs
    simp [natDigits_isDigit n c h]

theorem csParam_ne_nil (n : Nat) : csParam n ≠ [] := by
  unfold csParam csPrefix
  simp

theorem checkColorParam_csParam (n : Nat) : checkColorParam (csParam n) = true := by
  have h5 : (5 : Nat) = csPrefix.length := by decide
  unfold checkColorParam
  rw [h5]
  unfold csParam
  rw [List.take_left, List.drop_left]
  simp only [beq_self_eq_true, Bool.true_and]
  have h1 : (natDigits n).isEmpty = false := by
    cases h : natDigits n with
    | nil => exact absurd h (natDigits_ne_nil n)
    | cons a l => rfl
  rw [h1]
  simp only [Bool.not_false, Bool.true_and]
  rw [List.all_eq_true]
  intro c hc
  exact natDigits_isDigit n c hc

theorem updateState_csParam (n : Nat) (s : Option (List Char)) :
    updateState (csParam n) s = some (csParam n) := by
  unfold updateState
  rw [if_neg, if_pos (checkColorParam_csParam n)]
  intro h
  have h3 : '3' ∈ csParam n := by unfold csParam csPrefix; simp
  rw [h] at h3
  simp at h3

theorem updateState_reset (s : Option (List Char)) : updateState ['0'] s = none := by
  unfold updateState
  simp

/-! ### Facts about splitting and joining lines -/

theorem splitOnNl_ne_nil (s : List Char) : splitOnNl s ≠ [] := by
  cases s with
  | nil => simp [splitOnNl]
  | cons c cs =>
    unfold splitOnNl
    cases splitOnNl cs with
    | nil => simp
    | cons l ls => by_cases hc : c = '\n' <;> simp [hc]

theorem joinNl_cons (l : List Char) (ls : List (List Char)) (h : ls ≠ []) :
    joinNl (l :: ls) = l ++ '\n' :: joinNl ls := by
  cases ls with
  | nil => exact absurd rfl h
  | cons a rest => rfl

theorem joinNl_splitOnNl (s : List Char) : joinNl (splitOnNl s) = s := by
  induction s with
  | nil => rfl
  | cons c cs ih =>
    cases h : splitOnNl cs with
    | nil => exact absurd h (splitOnNl_ne_nil cs)
    | cons l ls =>
      rw [h] at ih
      by_cases hc : c = '\n'
      · subst hc
        simp only [splitOnNl, h, if_pos]
        rw [joinNl_cons _ _ (List.cons_ne_nil l ls), ih]
        rfl
      · simp only [splitOnNl, h, if_neg hc]
        cases ls with
        | nil => simpa [joinNl] using ih
        | cons l₂ ls₂ =>
          rw [joinNl_cons _ _ (List.cons_ne_nil l₂ ls₂)]
          rw [joinNl_cons _ _ (List.cons_ne_nil l₂ ls₂)] at ih
          rw [List.cons_append, ih]

theorem mem_of_mem_splitOnNl (s : List Char) (l : List Char) (c : Char)
    (hl : l ∈ splitOnNl s) (hc : c ∈ l) : c ∈ s := by
  induction s generalizing l with
  | nil =>
    simp [splitOnNl] at hl
    subst hl
    simp at hc
  | cons a cs ih =>
    rcases hls : splitOnNl cs with _ | ⟨l₀, ls⟩
    · exact absurd hls (splitOnNl_ne_nil cs)
    · simp only [splitOnNl, hls] at hl
      split at hl
      · rcases List.mem_cons.mp hl with h1 | h1
        · subst h1; simp at hc
        · exact List.mem_cons_of_mem a (ih l (hls ▸ h1) hc)
      · rcases List.mem_cons.mp hl with h1 | h1
        · subst h1
          rcases List.mem_cons.mp hc with h2 | h2
          · exact h2 ▸ List.mem_cons_self a cs
          · exact List.mem_cons_of_mem a (ih l₀ (hls ▸ List.mem_cons_self l₀ ls) h2)
        · exact List.mem_cons_of_mem a (ih l (hls ▸ List.mem_cons_of_mem l₀ h1) hc)

/-! ### Scanner lemmas -/

theorem scanGo_cons_ne (s : Option (List Char)) (c : Char) (cs : List Char) (hc : c ≠ escCh) :
    scanGo s .normal (c :: cs) = (c, s) :: scanGo s .normal cs := by
  simp [scanGo, hc]

theorem scanGo_inBody_run (s : Option (List Char)) (rest : List Char) :
    ∀ (ds acc : List Char), (∀ c ∈ ds, isCs c = true) → acc ≠ [] ∨ ds ≠ [] →
      scanGo s (.inBody acc) (ds ++ 'm' :: rest) =
        scanGo (updateState (acc.reverse ++ ds) s) .normal rest := by
  intro ds
  induction ds with
  | nil =>
    intro acc _ hne
    have hacc : acc ≠ [] := by
      rcases hne with h | h
      · exact h
      · exact absurd rfl h
    have hem : acc.isEmpty = false := by
      cases acc with
      | nil => exact absurd rfl hacc
      | cons a rest₂ => rfl
    simp [scanGo, isCs, hem]
  | cons d ds ih =>
    intro acc hcs _
    have hd : isCs d = true := hcs d (List.mem_cons_self d ds)
    have : scanGo s (.inBody acc) ((d :: ds) ++ 'm' :: rest) =
        scanGo s (.inBody (d :: acc)) (ds ++ 'm' :: rest) := by
      simp [scanGo, hd]
    rw [this, ih (d :: acc) (fun c hc => hcs c (List.mem_cons_of_mem d hc)) (Or.inl (by simp))]
    simp

theorem scanGo_code (s : Option (List Char)) (ds rest : List Char)
    (hne : ds ≠ []) (hcs : ∀ c ∈ ds, isCs c = true) :
    scanGo s .normal (escCh :: '[' :: (ds ++ 'm' :: rest)) =
      scanGo (updateState ds s) .normal rest := by
  have h1 : scanGo s .normal (escCh :: '[' :: (ds ++ 'm' :: rest)) =
      scanGo s .afterEsc ('[' :: (ds ++ 'm' :: rest)) := by
    simp [scanGo]
  have h2 : scanGo s .afterEsc ('[' :: (ds ++ 'm' :: rest)) =
      scanGo s (.inBody []) (ds ++ 'm' :: rest) := by
    simp [scanGo]
  rw [h1, h2, scanGo_inBody_run s rest ds [] hcs (Or.inr hne)]
  simp

theorem scanGo_colorSeq (s : Option (List Char)) (n : Nat) (rest : List Char) :
    scanGo s .normal (colorSeq n ++ rest) = scanGo (some (csParam n)) .normal rest := by
  have hshape : colorSeq n ++ rest = escCh :: '[' :: (csParam n ++ 'm' :: rest) := by
    simp [colorSeq]
  rw [hshape, scanGo_code s (csParam n) rest (csParam_ne_nil n) (csParam_cs n),
    updateState_csParam]

theorem scanGo_resetSeq (s : Option (List Char)) (rest : List Char) :
    scanGo s .normal (resetSeq ++ rest) = scanGo none .normal rest := by
  have hshape : resetSeq ++ rest = escCh :: '[' :: (['0'] ++ 'm' :: rest) := by
    simp [resetSeq]
  rw [hshape, scanGo_code s ['0'] rest (by simp) (by intro c hc; simp at hc; simp [hc, isCs]),
    updateState_reset]

theorem scanGo_normal_esc (s : Option (List Char)) (cs : List Char) :
    scanGo s .normal (escCh :: cs) = scanGo s .afterEsc cs := by
  simp [scanGo]

theorem scanGo_afterEsc_esc (s : Option (List Char)) (cs : List Char) :
    scanGo s .afterEsc (escCh :: cs) = (escCh, s) :: scanGo s .afterEsc cs := by
  have h : escCh ≠ '[' := by decide
  simp [scanGo, h]

theorem scanGo_afterEsc_bracket (s : Option (List Char)) (cs : List Char) :
    scanGo s .afterEsc ('[' :: cs) = scanGo s (.inBody []) cs := by
  simp [scanGo]

theorem scanGo_wrapColor (s : Option (List Char)) (n : Nat) (c : Char) (rest : List Char) :
    scanGo s .normal (wrapColor n c ++ rest) =
      (c, some (csParam n)) :: scanGo none .normal rest := by
  have hshape : wrapColor n c ++ rest = colorSeq n ++ (c :: (resetSeq ++ rest)) := by
    simp [wrapColor]
  rw [hshape, scanGo_colorSeq]
  by_cases hc : c = escCh
  · subst hc
    rw [scanGo_normal_esc]
    rw [show resetSeq ++ rest = escCh :: '[' :: '0' :: 'm' :: rest by simp [resetSeq]]
    rw [scanGo_afterEsc_esc, scanGo_afterEsc_bracket]
    have h4 : scanGo (some (csParam n)) (.inBody []) (('0' :: []) ++ 'm' :: rest) =
        scanGo (updateState (List.reverse [] ++ '0' :: []) (some (csParam n))) .normal rest :=
      scanGo_inBody_run _ rest ['0'] [] (by intro x hx; simp at hx; simp [hx, isCs]) (Or.inr (by simp))
    simp only [List.reverse_nil, List.nil_append] at h4
    rw [show ('0' :: 'm' :: rest) = (('0' :: []) ++ 'm' :: rest) by simp, h4, updateState_reset]
  · rw [scanGo_cons_ne _ c _ hc, scanGo_resetSeq]

theorem scanGo_append_noEsc (s : Option (List Char)) (l rest : List Char)
    (hl : ∀ c ∈ l, c ≠ escCh) :
    scanGo s .normal (l ++ rest) = l.map (fun c => (c, s)) ++ scanGo s .normal rest := by
  induction l with
  | nil => simp
  | cons c cs ih =>
    rw [List.cons_append, scanGo_cons_ne s c _ (hl c (List.mem_cons_self c cs))]
    rw [ih (fun x hx => hl x (List.mem_cons_of_mem c hx))]
    simp

theorem stripAnsi_nil : stripAnsi [] = [] := rfl

theorem stripAnsi_append_noEsc (l t : List Char) (hl : ∀ c ∈ l, c ≠ escCh) :
    stripAnsi (l ++ t) = l ++ stripAnsi t := by
  unfold stripAnsi scanAnsi
  rw [scanGo_append_noEsc none l t hl]
  simp [Function.comp_def]

theorem stripAnsi_wrapColor (n : Nat) (c : Char) (t : List Char) :
    stripAnsi (wrapColor n c ++ t) = c :: stripAnsi t := by
  unfold stripAnsi scanAnsi
  rw [scanGo_wrapColor]
  simp

theorem stripAnsi_wrapLine (n : Nat) (l t : List Char) (hl : ∀ c ∈ l, c ≠ escCh) :
    stripAnsi (wrapLine n l ++ t) = l ++ stripAnsi t := by
  unfold stripAnsi scanAnsi
  have hshape : wrapLine n l ++ t = colorSeq n ++ (l ++ (resetSeq ++ t)) := by
    simp [wrapLine]
  rw [hshape, scanGo_colorSeq, scanGo_append_noEsc _ l _ hl, scanGo_resetSeq]
  simp [Function.comp_def]

theorem stripAnsi_cons_ne (c : Char) (xs : List Char) (hc : c ≠ escCh) :
    stripAnsi (c :: xs) = c :: stripAnsi xs := by
  unfold stripAnsi scanAnsi
  rw [scanGo_cons_ne none c xs hc]
  simp

/-! ### Rendering lemmas -/

theorem renderLineGo_pairs (dec : Nat → Char → Option (Option Nat))
    (hraw : ∀ j c, dec j c = some none → c ≠ escCh) :
    ∀ (l : List Char) (j : Nat) (out : List Char), renderLineGo dec j l = some out →
      ∃ ps, linePairsGo dec j l = some ps ∧
        ps.map Prod.fst = l ∧
        ∀ t, scanGo none .normal (out ++ t) = ps ++ scanGo none .normal t := by
  intro l
  induction l with
  | nil =>
    intro j out h
    simp [renderLineGo] at h
    subst h
    exact ⟨[], rfl, rfl, fun t => by simp⟩
  | cons c cs ih =>
    intro j out h
    simp only [renderLineGo, Option.bind_eq_bind, bind, Option.bind] at h
    cases ho : dec j c with
    | none => rw [ho] at h; simp at h
    | some o =>
      rw [ho] at h
      cases hr : renderLineGo dec (j + 1) cs with
      | none => rw [hr] at h; simp at h
      | some rest =>
        rw [hr] at h
        simp only [pure, Option.some.injEq] at h
        rcases ih (j + 1) rest hr with ⟨ps, hps, hfst, hscan⟩
        refine ⟨(c, o.map csParam) :: ps, ?_, ?_, ?_⟩
        · simp [linePairsGo, ho, hps, pure]
        · simp [hfst]
        · intro t
          rw [← h]
          cases o with
          | none =>
            have hc : c ≠ escCh := hraw j c ho
            have h1 : emit none c ++ rest ++ t = c :: (rest ++ t) := by simp [emit]
            rw [h1, scanGo_cons_ne none c _ hc, hscan t]
            simp
          | some n =>
            have h1 : emit (some n) c ++ rest ++ t = wrapColor n c ++ (rest ++ t) := by
              simp [emit]
            rw [h1, scanGo_wrapColor, hscan t]
            simp

theorem renderLineGo_eval (dec : Nat → Char → Option (Option Nat)) (h : Nat → Char → Option Nat)
    (hdec : ∀ j c, dec j c = some (h j c)) :
    ∀ (l : List Char) (j : Nat),
      renderLineGo dec j l = some (List.flatten (mapIdx (fun j₂ c => emit (h j₂ c) c) j l)) := by
  intro l
  induction l with
  | nil => intro j; simp [renderLineGo, mapIdx]
  | cons c cs ih =>
    intro j
    simp only [renderLineGo, hdec, ih, mapIdx, List.flatten]
    rfl

theorem linePairsGo_wsNone (dec : Nat → Char → Option (Option Nat))
    (hws : ∀ j c, (c = ' ' ∨ c = '\t') → dec j c = some none) :
    ∀ (l : List Char) (j : Nat) (ps : List (Char × Option (List Char))),
      linePairsGo dec j l = some ps →
      ∀ pr ∈ ps, (pr.1 = ' ' ∨ pr.1 = '\t') → pr.2 = none := by
  intro l
  induction l with
  | nil =>
    intro j ps h
    simp [linePairsGo] at h
    subst h
    intro pr hpr
    simp at hpr
  | cons c cs ih =>
    intro j ps h
    simp only [linePairsGo, Option.bind_eq_bind, bind, Option.bind] at h
    cases ho : dec j c with
    | none => rw [ho] at h; simp at h
    | some o =>
      rw [ho] at h
      cases hr : linePairsGo dec (j + 1) cs with
      | none => rw [hr] at h; simp at h
      | some rest =>
        rw [hr] at h
        simp only [pure, Option.some.injEq] at h
        subst h
        intro pr hpr hw
        rcases List.mem_cons.mp hpr with h1 | h1
        · subst h1
          simp only at hw
          have := hws j c hw
          rw [this] at ho
          have ho2 : o = none := by simpa using ho.symm
          subst ho2
          rfl
        · exact ih (j + 1) rest hr pr h1 hw

/-! ### Line-list lemmas -/

theorem mapLinesGo_eval (f : Nat → List Char → Option (List Char)) (g : Nat → List Char → List Char)
    (hf : ∀ i l, f i l = some (g i l)) :
    ∀ (ls : List (List Char)) (i : Nat), mapLinesGo f i ls = some (mapIdx g i ls) := by
  intro ls
  induction ls with
  | nil => intro i; simp [mapLinesGo, mapIdx]
  | cons l rest ih =>
    intro i
    simp only [mapLinesGo, hf, ih, mapIdx]
    rfl

theorem mapLinesGo_strip (f : Nat → List Char → Option (List Char)) :
    ∀ (ls : List (List Char)) (i : Nat) (os : List (List Char)),
      (∀ i₂ l o, l ∈ ls → f i₂ l = some o → ∀ t, stripAnsi (o ++ t) = l ++ stripAnsi t) →
      mapLinesGo f i ls = some os →
      ∀ t, stripAnsi (joinNl os ++ t) = joinNl ls ++ stripAnsi t := by
  intro ls
  induction ls with
  | nil =>
    intro i os _ h t
    simp [mapLinesGo] at h
    subst h
    simp [joinNl]
  | cons l rest ih =>
    intro i os hline h t
    simp only [mapLinesGo, Option.bind_eq_bind, bind, Option.bind] at h
    cases ho : f i l with
    | none => rw [ho] at h; simp at h
    | some o =>
      rw [ho] at h
      cases hr : mapLinesGo f (i + 1) rest with
      | none => rw [hr] at h; simp at h
      | some os' =>
        rw [hr] at h
        simp only [pure, Option.some.injEq] at h
        subst h
        have hl : ∀ t₂, stripAnsi (o ++ t₂) = l ++ stripAnsi t₂ :=
          hline i l o (List.mem_cons_self l rest) ho
        cases rest with
        | nil =>
          have hos : os' = [] := by simpa [mapLinesGo] using hr.symm
          subst hos
          simpa [joinNl] using hl t
        | cons l₂ rest₂ =>
          have hne : os' ≠ [] := by
            intro hcon
            subst hcon
            simp only [mapLinesGo, Option.bind_eq_bind, bind, Option.bind] at hr
            cases h2 : f (i + 1) l₂ with
            | none => rw [h2] at hr; simp at hr
            | some o₂ =>
              rw [h2] at hr
              cases h3 : mapLinesGo f (i + 2) rest₂ with
              | none => rw [h3] at hr; simp at hr
              | some os₂ => rw [h3] at hr; simp [pure] at hr
          rw [joinNl_cons o os' hne, joinNl_cons l (l₂ :: rest₂) (List.cons_ne_nil _ _)]
          have ihr := ih (i + 1) os'
            (fun i₃ l₃ o₃ hm => hline i₃ l₃ o₃ (List.mem_cons_of_mem l hm)) hr
          rw [List.append_assoc, hl, List.cons_append, List.append_assoc]
          rw [stripAnsi_cons_ne _ _ (by decide), ihr t]
          simp

theorem mapLinesGo_cons_shape (f : Nat → List Char → Option (List Char)) (i : Nat)
    (l : List Char) (ls : List (List Char)) (os : List (List Char))
    (h : mapLinesGo f i (l :: ls) = some os) :
    ∃ o os₂, f i l = some o ∧ mapLinesGo f (i + 1) ls = some os₂ ∧ os = o :: os₂ := by
  simp only [mapLinesGo, Option.bind_eq_bind, bind, Option.bind] at h
  cases ho : f i l with
  | none => rw [ho] at h; simp at h
  | some o =>
    rw [ho] at h
    cases hr : mapLinesGo f (i + 1) ls with
    | none => rw [hr] at h; simp at h
    | some os₂ =>
      rw [hr] at h
      simp only [pure, Option.some.injEq] at h
      exact ⟨o, os₂, rfl, rfl, h.symm⟩

theorem mapLinesGo_scan_ws (f : Nat → List Char → Option (List Char)) :
    ∀ (ls : List (List Char)) (i : Nat) (os : List (List Char)),
      (∀ i₂ l o, l ∈ ls → f i₂ l = some o →
        ∀ t, ∃ ps, scanGo none .normal (o ++ t) = ps ++ scanGo none .normal t ∧
          ∀ pr ∈ ps, (pr.1 = ' ' ∨ pr.1 = '\t') → pr.2 = none) →
      mapLinesGo f i ls = some os →
      ∀ t pr, pr ∈ scanGo none .normal (joinNl os ++ t) → (pr.1 = ' ' ∨ pr.1 = '\t') →
        pr.2 = none ∨ pr ∈ scanGo none .normal t := by
  intro ls
  induction ls with
  | nil =>
    intro i os _ h t pr hpr _
    simp [mapLinesGo] at h
    subst h
    right
    simpa [joinNl] using hpr
  | cons l rest ih =>
    intro i os hline h t pr hpr hw
    rcases mapLinesGo_cons_shape f i l rest os h with ⟨o, os₂, ho, hr, hos⟩
    subst hos
    cases rest with
    | nil =>
      have hos2 : os₂ = [] := by simpa [mapLinesGo] using hr.symm
      subst hos2
      rcases hline i l o (List.mem_cons_self l []) ho t with ⟨ps, hscan, hps⟩
      rw [show joinNl [o] = o from rfl] at hpr
      rw [hscan] at hpr
      rcases List.mem_append.mp hpr with h1 | h1
      · exact Or.inl (hps pr h1 hw)
      · exact Or.inr h1
    | cons l₂ rest₂ =>
      have hne : os₂ ≠ [] := by
        intro hcon
        subst hcon
        rcases mapLinesGo_cons_shape f (i + 1) l₂ rest₂ [] hr with ⟨_, _, _, _, hcon2⟩
        simp at hcon2
      rw [joinNl_cons o os₂ hne, List.append_assoc, List.cons_append] at hpr
      rcases hline i l o (List.mem_cons_self l _) ho ('\n' :: (joinNl os₂ ++ t)) with
        ⟨ps, hscan, hps⟩
      rw [hscan, scanGo_cons_ne none '\n' _ (by decide)] at hpr
      rcases List.mem_append.mp hpr with h1 | h1
      · exact Or.inl (hps pr h1 hw)
      · rcases List.mem_cons.mp h1 with h2 | h2
        · subst h2
          exact Or.inl rfl
        · exact ih (i + 1) os₂
            (fun i₃ l₃ o₃ hm => hline i₃ l₃ o₃ (List.mem_cons_of_mem l hm)) hr t pr h2 hw

/-! ### Per-pattern decision facts -/

theorem isWs3_ne_esc (c : Char) (h : isWs3 c = true) : c ≠ escCh := by
  intro hcon
  subst hcon
  exact absurd h (by decide)

theorem isWs2_ne_esc (c : Char) (h : isWs2 c = true) : c ≠ escCh := by
  intro hcon
  subst hcon
  exact absurd h (by decide)

theorem pyIsSpace_ne_esc (c : Char) (h : pyIsSpace c = true) : c ≠ escCh := by
  intro hcon
  subst hcon
  exact absurd h (by decide)

theorem isWs2_of_ws (c : Char) (h : c = ' ' ∨ c = '\t') : isWs2 c = true := by
  rcases h with h | h <;> subst h <;> decide

theorem isWs3_of_ws (c : Char) (h : c = ' ' ∨ c = '\t') : isWs3 c = true := by
  rcases h with h | h <;> subst h <;> decide

theorem bicolor_dec_none (c1 c2 : String) (i j : Nat) (c : Char)
    (h : bicolor_dec c1 c2 i j c = some none) : isWs3 c = true := by
  by_cases hw : isWs3 c = true
  · exact hw
  · exfalso
    simp only [bicolor_dec, hw, if_false, Bool.false_eq_true] at h
    split at h <;> simp [Option.map_eq_some'] at h

theorem calico_dec_none (i j : Nat) (c : Char)
    (h : calico_dec i j c = some none) : isWs3 c = true := by
  by_cases hw : isWs3 c = true
  · exact hw
  · exfalso
    simp only [calico_dec, hw, if_false, Bool.false_eq_true] at h
    split at h <;> [skip; split at h] <;> [skip; skip; skip] <;>
      simp [Option.map_eq_some'] at h

theorem tortoiseshell_dec_none (i j : Nat) (c : Char)
    (h : tortoiseshell_dec i j c = some none) : isWs3 c = true := by
  by_cases hw : isWs3 c = true
  · exact hw
  · exfalso
    simp only [tortoiseshell_dec, hw, if_false, Bool.false_eq_true] at h
    split at h
    · simp [Option.map_eq_some'] at h
    · split at h <;> simp [Option.map_eq_some'] at h

theorem smoke_dec_none (base light : String) (j : Nat) (c : Char)
    (h : smoke_dec base light j c = some none) : isWs3 c = true := by
  by_cases hw : isWs3 c = true
  · exact hw
  · exfalso
    simp only [smoke_dec, hw, if_false, Bool.false_eq_true] at h
    split at h <;> simp [Option.map_eq_some'] at h

theorem tuxedo_dec_none (total i len j : Nat) (c : Char)
    (h : tuxedo_dec total i len j c = some none) : isWs3 c = true := by
  by_cases hw : isWs3 c = true
  · exact hw
  · exfalso
    simp only [tuxedo_dec, hw, if_false, Bool.false_eq_true] at h
    split at h <;> simp [Option.map_eq_some'] at h

theorem iggy_dec_none (c1 c2 : String) (total i lead clen j : Nat) (c : Char)
    (h : iggy_dec c1 c2 total i lead clen j c = some none) : isWs2 c = true := by
  by_cases hw : isWs2 c = true
  · exact hw
  · exfalso
    simp only [iggy_dec, hw, if_false, Bool.false_eq_true] at h
    split at h <;> simp [Option.map_eq_some'] at h

theorem lucy_dec_none (total i lead clen j : Nat) (c : Char)
    (h : lucy_dec total i lead clen j c = some none) : isWs2 c = true := by
  by_cases hw : isWs2 c = true
  · exact hw
  · exfalso
    simp only [lucy_dec, hw, if_false, Bool.false_eq_true] at h
    simp [Option.map_eq_some'] at h

theorem cassandra_dec_none (total i lead clen j : Nat) (c : Char)
    (h : cassandra_dec total i lead clen j c = some none) : isWs2 c = true := by
  by_cases hw : isWs2 c = true
  · exact hw
  · exfalso
    simp only [cassandra_dec, hw, if_false, Bool.false_eq_true] at h
    simp [Option.map_eq_some'] at h

theorem persephone_dec_none (total i lead clen j : Nat) (c : Char)
    (h : persephone_dec total i lead clen j c = some none) : isWs2 c = true := by
  by_cases hw : isWs2 c = true
  · exact hw
  · exfalso
    simp only [persephone_dec, hw, if_false, Bool.false_eq_true] at h
    simp [Option.map_eq_some'] at h

theorem jenny_dec_none (i j : Nat) (c : Char)
    (h : jenny_dec i j c = some none) : c = blank_braille := by
  by_cases hb : c = blank_braille
  · exact hb
  · exfalso
    simp only [jenny_dec, hb, if_false] at h
    rcases hh : heart_boundaries i with _ | b <;> rw [hh] at h <;>
      (repeat' split at h) <;> simp [Option.map_eq_some'] at h

theorem bicolor_dec_ws (c1 c2 : String) (i j : Nat) (c : Char) (h : c = ' ' ∨ c = '\t') :
    bicolor_dec c1 c2 i j c = some none := by
  unfold bicolor_dec
  rw [if_pos (isWs3_of_ws c h)]

theorem calico_dec_ws (i j : Nat) (c : Char) (h : c = ' ' ∨ c = '\t') :
    calico_dec i j c = some none := by
  unfold calico_dec
  rw [if_pos (isWs3_of_ws c h)]

theorem tortoiseshell_dec_ws (i j : Nat) (c : Char) (h : c = ' ' ∨ c = '\t') :
    tortoiseshell_dec i j c = some none := by
  unfold tortoiseshell_dec
  rw [if_pos (isWs3_of_ws c h)]

theorem smoke_dec_ws (base light : String) (j : Nat) (c : Char) (h : c = ' ' ∨ c = '\t') :
    smoke_dec base light j c = some none := by
  unfold smoke_dec
  rw [if_pos (isWs3_of_ws c h)]

theorem tuxedo_dec_ws (total i len j : Nat) (c : Char) (h : c = ' ' ∨ c = '\t') :
    tuxedo_dec total i len j c = some none := by
  unfold tuxedo_dec
  rw [if_pos (isWs3_of_ws c h)]

theorem iggy_dec_ws (c1 c2 : String) (total i lead clen j : Nat) (c : Char)
    (h : c = ' ' ∨ c = '\t') : iggy_dec c1 c2 total i lead clen j c = some none := by
  unfold iggy_dec
  rw [if_pos (isWs2_of_ws c h)]

theorem lucy_dec_ws (total i lead clen j : Nat) (c : Char) (h : c = ' ' ∨ c = '\t') :
    lucy_dec total i lead clen j c = some none := by
  unfold lucy_dec
  rw [if_pos (isWs2_of_ws c h)]

theorem cassandra_dec_ws (total i lead clen j : Nat) (c : Char) (h : c = ' ' ∨ c = '\t') :
    cassandra_dec total i lead clen j c = some none := by
  unfold cassandra_dec
  rw [if_pos (isWs2_of_ws c h)]

theorem persephone_dec_ws (total i lead clen j : Nat) (c : Char) (h : c = ' ' ∨ c = '\t') :
    persephone_dec total i lead clen j c = some none := by
  unfold persephone_dec
  rw [if_pos (isWs2_of_ws c h)]

/-! ### Per-line strip and scan helpers -/

theorem renderLineGo_strip (dec : Nat → Char → Option (Option Nat))
    (hraw : ∀ j c, dec j c = some none → c ≠ escCh)
    (l out : List Char) (h : renderLineGo dec 0 l = some out) :
    ∀ t, stripAnsi (out ++ t) = l ++ stripAnsi t := by
  rcases renderLineGo_pairs dec hraw l 0 out h with ⟨ps, _, hfst, hscan⟩
  intro t
  unfold stripAnsi scanAnsi
  rw [hscan t]
  simp [hfst]

theorem renderLineGo_scan_ws (dec : Nat → Char → Option (Option Nat))
    (hraw : ∀ j c, dec j c = some none → c ≠ escCh)
    (hws : ∀ j c, (c = ' ' ∨ c = '\t') → dec j c = some none)
    (l out : List Char) (h : renderLineGo dec 0 l = some out) :
    ∀ t, ∃ ps, scanGo none .normal (out ++ t) = ps ++ scanGo none .normal t ∧
      ∀ pr ∈ ps, (pr.1 = ' ' ∨ pr.1 = '\t') → pr.2 = none := by
  rcases renderLineGo_pairs dec hraw l 0 out h with ⟨ps, hps, _, hscan⟩
  intro t
  exact ⟨ps, hscan t, linePairsGo_wsNone dec hws l 0 ps hps⟩

theorem blankLine_noEsc (l : List Char) (hb : isBlankLine l = true) :
    ∀ c ∈ l, c ≠ escCh := by
  intro c hc
  exact pyIsSpace_ne_esc c (List.all_eq_true.mp hb c hc)

theorem strip_of_mapLines (f : Nat → List Char → Option (List Char)) (content out : List Char)
    (hline : ∀ i l o, l ∈ splitOnNl content → f i l = some o →
      ∀ t, stripAnsi (o ++ t) = l ++ stripAnsi t)
    (h : (mapLinesGo f 0 (splitOnNl content)).map joinNl = some out) :
    stripAnsi out = content := by
  rcases Option.map_eq_some'.mp h with ⟨os, hos, hout⟩
  subst hout
  have h2 := mapLinesGo_strip f (splitOnNl content) 0 os hline hos []
  simpa [stripAnsi_nil, joinNl_splitOnNl] using h2

/-- C1 (amended): for every pattern function the program constructs and for
every input text that contains no ASCII escape character (in particular every
input made of printable art and empty lines), stripping all terminal color
escape sequences from the output reproduces the input exactly.  The
restriction to escape-free inputs is forced by the counterexample
c1_cex_strip_not_id: the solid, tabby and colorpoint patterns wrap whole
lines, so an input that itself contains an ANSI escape sequence is consumed
by the stripper. -/
theorem c1_round_trip (p : PatternId) (input out : List Char)
    (hfree : escFree input) (h : applyPattern p input = some out) :
    stripAnsi out = input := by
  cases p with
  | solid c =>
    simp only [applyPattern, solid_pattern] at h
    rcases Option.map_eq_some'.mp h with ⟨n, _, hout⟩
    subst hout
    have hshape : colorSeq n ++ input ++ resetSeq = wrapLine n input ++ [] := by
      simp [wrapLine]
    rw [hshape, stripAnsi_wrapLine n input [] hfree]
    simp [stripAnsi_nil]
  | bicolor c1 c2 =>
    simp only [applyPattern, bicolor_pattern] at h
    refine strip_of_mapLines _ input out ?_ h
    intro i l o _ ho
    exact renderLineGo_strip _
      (fun j c hc => isWs3_ne_esc c (bicolor_dec_none c1 c2 i j c hc)) l o ho
  | tabby b s =>
    simp only [applyPattern, tabby_pattern] at h
    refine strip_of_mapLines _ input out ?_ h
    intro i l o hm ho
    rcases Option.map_eq_some'.mp ho with ⟨n, _, hout⟩
    subst hout
    exact fun t => stripAnsi_wrapLine n l t
      (fun c hc => hfree c (mem_of_mem_splitOnNl input l c hm hc))
  | calico =>
    simp only [applyPattern, calico_pattern] at h
    refine strip_of_mapLines _ input out ?_ h
    intro i l o _ ho
    exact renderLineGo_strip _
      (fun j c hc => isWs3_ne_esc c (calico_dec_none i j c hc)) l o ho
  | tortoiseshell =>
    simp only [applyPattern, tortoiseshell_pattern] at h
    refine strip_of_mapLines _ input out ?_ h
    intro i l o _ ho
    exact renderLineGo_strip _
      (fun j c hc => isWs3_ne_esc c (tortoiseshell_dec_none i j c hc)) l o ho
  | colorpoint b p =>
    simp only [applyPattern, colorpoint_pattern] at h
    refine strip_of_mapLines _ input out ?_ h
    intro i l o hm ho
    rcases Option.map_eq_some'.mp ho with ⟨n, _, hout⟩
    subst hout
    exact fun t => stripAnsi_wrapLine n l t
      (fun c hc => hfree c (mem_of_mem_splitOnNl input l c hm hc))
  | smoke c =>
    simp only [applyPattern, smoke_pattern] at h
    refine strip_of_mapLines _ input out ?_ h
    intro i l o _ ho
    exact renderLineGo_strip _
      (fun j c₂ hc => isWs3_ne_esc c₂ (smoke_dec_none c (smoke_light c) j c₂ hc)) l o ho
  | tuxedo =>
    simp only [applyPattern, tuxedo_pattern] at h
    refine strip_of_mapLines _ input out ?_ h
    intro i l o _ ho
    exact renderLineGo_strip _
      (fun j c hc => isWs3_ne_esc c (tuxedo_dec_none _ i l.length j c hc)) l o ho
  | iggy c1 c2 =>
    simp only [applyPattern, iggy_pattern] at h
    refine strip_of_mapLines _ input out ?_ h
    intro i l o _ ho
    by_cases hb : isBlankLine l = true
    · rw [if_pos hb] at ho
      have hol : o = l := by simpa using ho.symm
      subst hol
      exact fun t => stripAnsi_append_noEsc o t (blankLine_noEsc o hb)
    · rw [if_neg hb] at ho
      exact renderLineGo_strip _
        (fun j c hc => isWs2_ne_esc c (iggy_dec_none c1 c2 _ i _ _ j c hc)) l o ho
  | lucy =>
    simp only [applyPattern, lucy_pattern] at h
    refine strip_of_mapLines _ input out ?_ h
    intro i l o _ ho
    by_cases hb : isBlankLine l = true
    · rw [if_pos hb] at ho
      have hol : o = l := by simpa using ho.symm
      subst hol
      exact fun t => stripAnsi_append_noEsc o t (blankLine_noEsc o hb)
    · rw [if_neg hb] at ho
      exact renderLineGo_strip _
        (fun j c hc => isWs2_ne_esc c (lucy_dec_none _ i _ _ j c hc)) l o ho
  | cassandra =>
    simp only [applyPattern, cassandra_pattern] at h
    refine strip_of_mapLines _ input out ?_ h
    intro i l o _ ho
    by_cases hb : isBlankLine l = true
    · rw [if_pos hb] at ho
      have hol : o = l := by simpa using ho.symm
      subst hol
      exact fun t => stripAnsi_append_noEsc o t (blankLine_noEsc o hb)
    · rw [if_neg hb] at ho
      exact renderLineGo_strip _
        (fun j c hc => isWs2_ne_esc c (cassandra_dec_none _ i _ _ j c hc)) l o ho
  | persephone =>
    simp only [applyPattern, persephone_pattern] at h
    refine strip_of_mapLines _ input out ?_ h
    intro i l o _ ho
    by_cases hb : isBlankLine l = true
    · rw [if_pos hb] at ho
      have hol : o = l := by simpa using ho.symm
      subst hol
      exact fun t => stripAnsi_append_noEsc o t (blankLine_noEsc o hb)
    · rw [if_neg hb] at ho
      exact renderLineGo_strip _
        (fun j c hc => isWs2_ne_esc c (persephone_dec_none _ i _ _ j c hc)) l o ho
  | jennycatto =>
    simp only [applyPattern, jennycatto_pattern] at h
    refine strip_of_mapLines _ input out ?_ h
    intro i l o _ ho
    refine renderLineGo_strip _ ?_ l o ho
    intro j c hc
    rw [jenny_dec_none i j c hc]
    decide

/-- C1 counterexample: the claim as frozen quantifies over every input text.
For the solid pattern (an entry of the registry) and the four-character input
ESC [ 5 m, the pattern succeeds but stripping its output yields the empty
text, not the input: the whole-content wrap of the solid pattern lets the
input's own characters combine into a sequence the stripper removes. -/
theorem c1_cex_strip_not_id :
    (applyPattern (.solid "black") [escCh, '[', '5', 'm']).isSome = true ∧
      (applyPattern (.solid "black") [escCh, '[', '5', 'm']).map stripAnsi = some [] ∧
      ([] : List Char) ≠ [escCh, '[', '5', 'm'] := by
  refine ⟨by decide, by decide, by decide⟩

theorem c1_round_trip_witness :
    stripAnsi ((applyPattern (.bicolor "black" "white") ['c', 'a', 't']).getD []) =
      ['c', 'a', 't'] :=
  c1_round_trip (.bicolor "black" "white") ['c', 'a', 't'] _ (by decide) (by decide)

/-! ### Whitespace and color spans -/

theorem blank_scan_ws (l : List Char) (hb : isBlankLine l = true) :
    ∀ t, ∃ ps, scanGo none .normal (l ++ t) = ps ++ scanGo none .normal t ∧
      ∀ pr ∈ ps, (pr.1 = ' ' ∨ pr.1 = '\t') → pr.2 = none := by
  intro t
  refine ⟨l.map (fun c => (c, none)), scanGo_append_noEsc none l t (blankLine_noEsc l hb), ?_⟩
  intro pr hpr _
  rcases List.mem_map.mp hpr with ⟨c, _, hc⟩
  rw [← hc]

theorem scan_ws_of_mapLines (f : Nat → List Char → Option (List Char)) (content out : List Char)
    (hline : ∀ i l o, l ∈ splitOnNl content → f i l = some o →
      ∀ t, ∃ ps, scanGo none .normal (o ++ t) = ps ++ scanGo none .normal t ∧
        ∀ pr ∈ ps, (pr.1 = ' ' ∨ pr.1 = '\t') → pr.2 = none)
    (h : (mapLinesGo f 0 (splitOnNl content)).map joinNl = some out) :
    ∀ pr ∈ scanAnsi none out, (pr.1 = ' ' ∨ pr.1 = '\t') → pr.2 = none := by
  rcases Option.map_eq_some'.mp h with ⟨os, hos, hout⟩
  subst hout
  intro pr hpr hw
  have hpr2 : pr ∈ scanGo none .normal (joinNl os ++ []) := by
    simpa using hpr
  rcases mapLinesGo_scan_ws f (splitOnNl content) 0 os hline hos [] pr hpr2 hw with h1 | h1
  · exact h1
  · simp [scanGo, flushMode] at h1

/-- C2 (amended): for the pattern kinds whose rendering loop tests each
character against the space/tab whitespace set — bicolor, calico,
tortoiseshell, smoke, tuxedo, the tuxedo-style portrait and the three bespoke
portraits — no whitespace character is ever inside a color-coded span of the
output: scanning the output, every space or tab is paired with no active
color.  The restriction to these kinds is forced by the counterexample
c2_cex_solid_space: solid, tabby and colorpoint wrap whole lines (whitespace
included) inside one color/RESET pair, and the heart-overlay pattern colors
spaces and tabs because it only exempts the blank braille filler. -/
theorem c2_ws_uncolored (p : PatternId) (input out : List Char)
    (hk : wsSafeKind p = true) (h : applyPattern p input = some out) :
    ∀ pr ∈ scanAnsi none out, (pr.1 = ' ' ∨ pr.1 = '\t') → pr.2 = none := by
  cases p with
  | solid c => simp [wsSafeKind] at hk
  | tabby b s => simp [wsSafeKind] at hk
  | colorpoint b pt => simp [wsSafeKind] at hk
  | jennycatto => simp [wsSafeKind] at hk
  | bicolor c1 c2 =>
    simp only [applyPattern, bicolor_pattern] at h
    refine scan_ws_of_mapLines _ input out ?_ h
    intro i l o _ ho
    exact renderLineGo_scan_ws _
      (fun j c hc => isWs3_ne_esc c (bicolor_dec_none c1 c2 i j c hc))
      (fun j c hc => bicolor_dec_ws c1 c2 i j c hc) l o ho
  | calico =>
    simp only [applyPattern, calico_pattern] at h
    refine scan_ws_of_mapLines _ input out ?_ h
    intro i l o _ ho
    exact renderLineGo_scan_ws _
      (fun j c hc => isWs3_ne_esc c (calico_dec_none i j c hc))
      (fun j c hc => calico_dec_ws i j c hc) l o ho
  | tortoiseshell =>
    simp only [applyPattern, tortoiseshell_pattern] at h
    refine scan_ws_of_mapLines _ input out ?_ h
    intro i l o _ ho
    exact renderLineGo_scan_ws _
      (fun j c hc => isWs3_ne_esc c (tortoiseshell_dec_none i j c hc))
      (fun j c hc => tortoiseshell_dec_ws i j c hc) l o ho
  | smoke c =>
    simp only [applyPattern, smoke_pattern] at h
    refine scan_ws_of_mapLines _ input out ?_ h
    intro i l o _ ho
    exact renderLineGo_scan_ws _
      (fun j c₂ hc => isWs3_ne_esc c₂ (smoke_dec_none c (smoke_light c) j c₂ hc))
      (fun j c₂ hc => smoke_dec_ws c (smoke_light c) j c₂ hc) l o ho
  | tuxedo =>
    simp only [applyPattern, tuxedo_pattern] at h
    refine scan_ws_of_mapLines _ input out ?_ h
    intro i l o _ ho
    exact renderLineGo_scan_ws _
      (fun j c hc => isWs3_ne_esc c (tuxedo_dec_none _ i l.length j c hc))
      (fun j c hc => tuxedo_dec_ws _ i l.length j c hc) l o ho
  | iggy c1 c2 =>
    simp only [applyPattern, iggy_pattern] at h
    refine scan_ws_of_mapLines _ input out ?_ h
    intro i l o _ ho
    by_cases hb : isBlankLine l = true
    · rw [if_pos hb] at ho
      have hol : o = l := by simpa using ho.symm
      subst hol
      exact blank_scan_ws o hb
    · rw [if_neg hb] at ho
      exact renderLineGo_scan_ws _
        (fun j c hc => isWs2_ne_esc c (iggy_dec_none c1 c2 _ i _ _ j c hc))
        (fun j c hc => iggy_dec_ws c1 c2 _ i _ _ j c hc) l o ho
  | lucy =>
    simp only [applyPattern, lucy_pattern] at h
    refine scan_ws_of_mapLines _ input out ?_ h
    intro i l o _ ho
    by_cases hb : isBlankLine l = true
    · rw [if_pos hb] at ho
      have hol : o = l := by simpa using ho.symm
      subst hol
      exact blank_scan_ws o hb
    · rw [if_neg hb] at ho
      exact renderLineGo_scan_ws _
        (fun j c hc => isWs2_ne_esc c (lucy_dec_none _ i _ _ j c hc))
        (fun j c hc => lucy_dec_ws _ i _ _ j c hc) l o ho
  | cassandra =>
    simp only [applyPattern, cassandra_pattern] at h
    refine scan_ws_of_mapLines _ input out ?_ h
    intro i l o _ ho
    by_cases hb : isBlankLine l = true
    · rw [if_pos hb] at ho
      have hol : o = l := by simpa using ho.symm
      subst hol
      exact blank_scan_ws o hb
    · rw [if_neg hb] at ho
      exact renderLineGo_scan_ws _
        (fun j c hc => isWs2_ne_esc c (cassandra_dec_none _ i _ _ j c hc))
        (fun j c hc => cassandra_dec_ws _ i _ _ j c hc) l o ho
  | persephone =>
    simp only [applyPattern, persephone_pattern] at h
    refine scan_ws_of_mapLines _ input out ?_ h
    intro i l o _ ho
    by_cases hb : isBlankLine l = true
    · rw [if_pos hb] at ho
      have hol : o = l := by simpa using ho.symm
      subst hol
      exact blank_scan_ws o hb
    · rw [if_neg hb] at ho
      exact renderLineGo_scan_ws _
        (fun j c hc => isWs2_ne_esc c (persephone_dec_none _ i _ _ j c hc))
        (fun j c hc => persephone_dec_ws _ i _ _ j c hc) l o ho

/-- C2 counterexample: under the solid pattern — cited by the claim — a
single space input is emitted inside the black color span: the scanner pairs
the space with the active color parameter 38;5;232, not with none. -/
theorem c2_cex_solid_space :
    applyPattern (.solid "black") [' '] = some (wrapLine 232 [' ']) ∧
      scanAnsi none (wrapLine 232 [' ']) = [(' ', some (csParam 232))] ∧
      some (csParam 232) ≠ (none : Option (List Char)) := by
  refine ⟨by decide, by decide, by decide⟩

theorem c2_ws_uncolored_witness :
    ((scanAnsi none ((applyPattern (.bicolor "black" "white") [' ', 'a']).getD [])).headD
      (' ', none)).2 = none :=
  c2_ws_uncolored (.bicolor "black" "white") [' ', 'a']
    ((applyPattern (.bicolor "black" "white") [' ', 'a']).getD []) (by decide) (by decide)
    ((scanAnsi none ((applyPattern (.bicolor "black" "white") [' ', 'a']).getD [])).headD
      (' ', none)) (by decide) (by decide)

/-! ### Exact renders for the position-characterized patterns -/

theorem lookup_white : lookupColor "white" = some 255 := rfl

theorem lookup_black : lookupColor "black" = some 232 := rfl

theorem lookup_pink_red : lookupColor "pink_red" = some 204 := rfl

theorem lookup_forest_green : lookupColor "forest_green" = some 34 := rfl

theorem tuxedo_dec_eval (total i len j : Nat) (c : Char) :
    tuxedo_dec total i len j c = some (tuxedoSpecColor total i len j c) := by
  unfold tuxedo_dec tuxedoSpecColor middleHalfRow middleThirdCol
  by_cases hw : isWs3 c = true
  · simp [hw]
  · simp only [hw, if_false, Bool.false_eq_true]
    by_cases hc : (total / 4 < i ∧ i < total * 3 / 4) ∧ (len / 3 < j ∧ j < len * 2 / 3)
    · rw [if_pos hc, if_pos hc, lookup_white]
      rfl
    · rw [if_neg hc, if_neg hc, lookup_black]
      rfl

set_option maxRecDepth 40000 in
/-- C5: the plain tuxedo pattern colors white exactly the non-whitespace
characters lying in the middle half of the rows (strictly between the
quartile indexes total // 4 and total * 3 // 4, as the source computes them)
and in the middle third of the row's columns (strictly between len // 3 and
len * 2 // 3); every other non-whitespace character is black.  The first
conjunct gives the exact output for every input; the remaining conjuncts
instantiate the claim's concrete scenario, a 20-line block of 29 identical
non-whitespace characters, whose output contains characters inside a white
span and characters inside a black span. -/
theorem c5_tuxedo_characterization (content : List Char) :
    tuxedo_pattern content = some (tuxedoSpecRender content) ∧
    ((scanAnsi none (tuxedoSpecRender tuxedoScenario)).any
        (fun pr => pr.2 == some (csParam 255)) = true ∧
      (scanAnsi none (tuxedoSpecRender tuxedoScenario)).any
        (fun pr => pr.2 == some (csParam 232)) = true) := by
  constructor
  · simp only [tuxedo_pattern, tuxedoSpecRender]
    rw [mapLinesGo_eval _
      (fun i l => specRenderLine (tuxedoSpecColor (splitOnNl content).length i l.length) l)
      (fun i l => renderLineGo_eval _ _ (tuxedo_dec_eval (splitOnNl content).length i l.length) l 0)]
    rfl
  · constructor
    · decide
    · decide

theorem mapLinesGo_eval_bounded (f : Nat → List Char → Option (List Char))
    (g : Nat → List Char → List Char) :
    ∀ (ls : List (List Char)) (i : Nat),
      (∀ k l, i ≤ k → k < i + ls.length → f k l = some (g k l)) →
      mapLinesGo f i ls = some (mapIdx g i ls) := by
  intro ls
  induction ls with
  | nil => intro i _; simp [mapLinesGo, mapIdx]
  | cons l rest ih =>
    intro i hf
    have h1 : f i l = some (g i l) := hf i l (Nat.le_refl i) (by simp)
    have h2 : mapLinesGo f (i + 1) rest = some (mapIdx g (i + 1) rest) := by
      refine ih (i + 1) ?_
      intro k l₂ hk1 hk2
      exact hf k l₂ (by omega) (by simp at hk2 ⊢; omega)
    simp only [mapLinesGo, h1, h2, mapIdx]
    rfl

/-- C6 (amended): the colorpoint pattern wraps whole lines, choosing the
points color exactly on the top band i < total // 5 and on the bottom band
i > total * 4 // 5 — one row fewer than a full fifth at the bottom whenever
5 divides total — and the body color on every other row.  The claim's
symmetric bottom band of the last total // 5 rows is refuted by
c6_cex_bottom_band. -/
theorem c6_colorpoint_bands (bn pn : String) (bc pc : Nat) (content out : List Char)
    (hb : lookupColor bn = some bc) (hp : lookupColor pn = some pc)
    (h : colorpoint_pattern bn pn content = some out) :
    out = colorpointCodeRender bc pc content := by
  simp only [colorpoint_pattern] at h
  rw [mapLinesGo_eval _
    (fun i l =>
      wrapLine (if colorpointCodePick (splitOnNl content).length i then pc else bc) l)
    ?_] at h
  · rw [Option.map_some'] at h
    have hout := Option.some.inj h
    rw [← hout]
    rfl
  · intro i l
    by_cases hpick : colorpointCodePick (splitOnNl content).length i = true
    · have hcond : (decide (i < (splitOnNl content).length / 5) ||
          decide ((splitOnNl content).length * 4 / 5 < i)) = true := hpick
      simp [hcond, hpick, hp]
    · have hpick2 : colorpointCodePick (splitOnNl content).length i = false := by
        simpa using hpick
      have hcond : (decide (i < (splitOnNl content).length / 5) ||
          decide ((splitOnNl content).length * 4 / 5 < i)) = false := hpick2
      simp [hcond, hpick2, hb]

set_option maxRecDepth 40000 in
/-- C6 counterexample: the claim's reading — points on the top fifth and on
the bottom fifth of the row indexes — fails on a ten-line input: row index 8
lies in the bottom fifth but the source colors it with the body color,
because its bottom band requires i > 10 * 4 // 5 = 8 strictly. -/
theorem c6_cex_bottom_band :
    ¬ (∀ (bn pn : String) (bc pc : Nat) (content out : List Char),
        lookupColor bn = some bc → lookupColor pn = some pc →
        colorpoint_pattern bn pn content = some out →
        out = colorpointClaimRender bc pc content) := by
  intro hcl
  have h := hcl "cream" "chocolate" 223 94 (joinNl (List.replicate 10 ['a']))
    ((colorpoint_pattern "cream" "chocolate" (joinNl (List.replicate 10 ['a']))).getD [])
    (by decide) (by decide) (by decide)
  exact absurd h (by decide)

theorem c6_colorpoint_bands_witness :
    (colorpoint_pattern "cream" "chocolate" ['a', '\n', 'b']).getD [] =
      colorpointCodeRender 223 94 ['a', '\n', 'b'] :=
  c6_colorpoint_bands "cream" "chocolate" 223 94 ['a', '\n', 'b']
    ((colorpoint_pattern "cream" "chocolate" ['a', '\n', 'b']).getD [])
    (by decide) (by decide) (by decide)

theorem jenny_dec_eval (i j : Nat) (c : Char) :
    jenny_dec i j c = some (jennySpecColor i j c) := by
  unfold jenny_dec jennySpecColor heart_boundaries
  by_cases hb : c = blank_braille
  · simp [hb]
  · simp only [hb, if_false]
    by_cases h4 : i = 4
    · subst h4
      by_cases hj : 28 ≤ j <;> simp [hj, lookup_pink_red, lookup_forest_green]
    · by_cases h5 : i = 5
      · subst h5
        by_cases hj : 28 ≤ j <;> simp [hj, lookup_pink_red, lookup_forest_green]
      · by_cases h6 : i = 6
        · subst h6
          by_cases hj : 28 ≤ j <;> simp [hj, lookup_pink_red, lookup_forest_green]
        · by_cases h7 : i = 7
          · subst h7
            by_cases hj : 30 ≤ j <;> simp [hj, lookup_pink_red, lookup_forest_green]
          · by_cases h8 : i = 8
            · subst h8
              by_cases hj : 32 ≤ j <;> simp [hj, lookup_pink_red, lookup_forest_green]
            · simp [h4, h5, h6, h7, h8, lookup_forest_green]

/-- C7: the heart-overlay pattern emits exactly the claim's rendering: every
character that is not the blank braille filler is colored forest green
(code 34), except characters on rows 4 through 8 at or beyond that row's
minimum column (28, 28, 28 for rows 4 to 6, then 30, then 32), which are
colored pink/red (code 204); the blank braille filler is always passed
through bare.  The second conjunct shows pink/red is assigned only on rows 4
through 8, and the third that the filler is never colored. -/
theorem c7_jenny_characterization (content : List Char) :
    jennycatto_pattern content = some (jennySpecRender content) ∧
    (∀ i j c, jennySpecColor i j c = some 204 → 4 ≤ i ∧ i ≤ 8) ∧
    (∀ i j, jennySpecColor i j blank_braille = none) := by
  refine ⟨?_, ?_, ?_⟩
  · simp only [jennycatto_pattern, jennySpecRender]
    rw [mapLinesGo_eval _ (fun i l => specRenderLine (jennySpecColor i) l)
      (fun i l => renderLineGo_eval _ _ (jenny_dec_eval i) l 0)]
    rfl
  · intro i j c h
    unfold jennySpecColor at h
    split_ifs at h with h1 h2
    · rcases h2 with h2 | h2 | h2 | h2 | h2 <;> omega
    · simp at h
  · intro i j
    unfold jennySpecColor
    rw [if_pos rfl]

theorem c7_jenny_witness :
    jennycatto_pattern ['x'] = some (jennySpecRender ['x']) ∧ (4 ≤ 4 ∧ 4 ≤ 8) :=
  ⟨(c7_jenny_characterization ['x']).1,
    (c7_jenny_characterization ['x']).2.1 4 28 'x' (by decide)⟩

/-- C10: for an input of fewer than five lines the colorpoint pattern colors
every line with the body color: the top points band is empty since
total // 5 = 0 and no row index exceeds total * 4 // 5, so the output equals
every line wrapped in the body code and is independent of the points color. -/
theorem c10_colorpoint_small (bn pn : String) (bc : Nat) (content out : List Char)
    (hb : lookupColor bn = some bc)
    (hlen : (splitOnNl content).length < 5)
    (h : colorpoint_pattern bn pn content = some out) :
    out = joinNl (mapIdx (fun _ l => wrapLine bc l) 0 (splitOnNl content)) := by
  simp only [colorpoint_pattern] at h
  rw [mapLinesGo_eval_bounded _ (fun _ l => wrapLine bc l) (splitOnNl content) 0 ?_] at h
  · rw [Option.map_some'] at h
    exact (Option.some.inj h).symm
  · intro k l _ hk2
    simp only [Nat.zero_add] at hk2
    have hc1 : ¬ k < (splitOnNl content).length / 5 := by omega
    have hc2 : ¬ (splitOnNl content).length * 4 / 5 < k := by omega
    simp [hc1, hc2, hb]

theorem c10_colorpoint_small_witness :
    (splitOnNl ['a', '\n', 'b']).length < 5 ∧
      (colorpoint_pattern "cream" "lilac" ['a', '\n', 'b']).getD [] =
        joinNl (mapIdx (fun _ l => wrapLine 223 l) 0 (splitOnNl ['a', '\n', 'b'])) :=
  ⟨by decide, c10_colorpoint_small "cream" "lilac" 223 ['a', '\n', 'b']
    ((colorpoint_pattern "cream" "lilac" ['a', '\n', 'b']).getD [])
    (by decide) (by decide) (by decide)⟩

/-! ### Registry and color-table claims -/

/-- C3 counterexample: the registry entry named bicolor_black_white_tuxedo is
built from the tuxedo-style portrait generator, not from one of the simple
geometric constructors, so a positional portrait generator is reachable via
random selection. -/
theorem c3_cex_portrait_in_registry :
    (("bicolor_black_white_tuxedo", PatternId.iggy "black" "white") ∈ random_patterns) ∧
      isPortraitGen (PatternId.iggy "black" "white") = true ∧
      isSimpleGeometric (PatternId.iggy "black" "white") = false := by
  refine ⟨by decide, by decide, by decide⟩

/-- C3 (amended): every registry name carries one of the family prefixes, and
every entry is one of the simple geometric patterns except the eight
bicolor-prefixed tuxedo and tuxedo-invert entries, which are built from the
tuxedo-style portrait generator; the bespoke portrait generators (gradient,
silver tabby, silver/white bicolor, heart overlay) never occur in the
registry, so those portraits remain reachable only via explicit selection. -/
theorem c3_registry_families :
    (random_patterns.all (fun e => hasFamilyPrefix e.1)) = true ∧
    (random_patterns.all (fun e =>
      isSimpleGeometric e.2 ||
        ((match e.2 with | PatternId.iggy _ _ => true | _ => false) &&
          "bicolor_".data.isPrefixOf e.1.data))) = true := by
  refine ⟨by decide, by decide⟩

/-- C4 counterexample: take a 100-line image and the non-blank rows 25 and 40
(relative lines 0.25 and 0.40, both at or beyond the 0.08 top-zone boundary).
The effective threshold at the lower row 40 is 0.25, strictly below the 0.35
threshold at the higher row 25, so the thresholds do not widen monotonically
down the image; concretely, at horizontal distance 30 with content length
100, the lower row is back-colored while the higher row is chest-colored. -/
theorem c4_cex_threshold_drop :
    (8 : ℚ)/100 ≤ (25 : ℚ)/100 ∧ (25 : ℚ)/100 ≤ (40 : ℚ)/100 ∧
      iggyThreshold ((40 : ℚ)/100) < iggyThreshold ((25 : ℚ)/100) ∧
      iggyIsBack ((40 : ℚ)/100) 30 100 = true ∧
      iggyIsBack ((25 : ℚ)/100) 30 100 = false := by
  refine ⟨by norm_num, by norm_num, by norm_num [iggyThreshold], by norm_num [iggyIsBack],
    by norm_num [iggyIsBack]⟩

set_option maxHeartbeats 2000000 in
/-- C4 (amended): the effective chest/back thresholds of the tuxedo-style
portrait widen monotonically within the blaze zones (relative lines from 0.08
up to 0.34) and again within the body zones (from 0.34 down), but drop from
0.35 to 0.25 at the 0.34 boundary; the third conjunct ties the threshold
function to the is_back_color computation of the generator on every row at or
beyond the 0.08 boundary. -/
theorem c4_threshold_monotone :
    (∀ r₁ r₂ : ℚ, 8/100 ≤ r₁ → r₁ ≤ r₂ → r₂ < 34/100 →
      iggyThreshold r₁ ≤ iggyThreshold r₂) ∧
    (∀ r₁ r₂ : ℚ, 34/100 ≤ r₁ → r₁ ≤ r₂ →
      iggyThreshold r₁ ≤ iggyThreshold r₂) ∧
    (∀ rl dist clen : ℚ, 8/100 ≤ rl →
      (iggyIsBack rl dist clen = true ↔ dist > clen * iggyThreshold rl)) := by
  refine ⟨?_, ?_, ?_⟩
  · intro r₁ r₂ h1 h2 h3
    unfold iggyThreshold
    split_ifs <;> linarith
  · intro r₁ r₂ h1 h2
    unfold iggyThreshold
    split_ifs <;> linarith
  · intro rl dist clen hrl
    unfold iggyIsBack iggyThreshold
    split_ifs <;> simp [decide_eq_true_eq] <;> linarith

theorem c4_threshold_monotone_witness :
    iggyThreshold (8/100) ≤ iggyThreshold (10/100) ∧
      iggyThreshold (40/100) ≤ iggyThreshold (60/100) ∧
      (iggyIsBack (50/100) 90 100 = true ↔ (90 : ℚ) > 100 * iggyThreshold (50/100)) :=
  ⟨c4_threshold_monotone.1 (8/100) (10/100) (by norm_num) (by norm_num) (by norm_num),
   c4_threshold_monotone.2.1 (40/100) (60/100) (by norm_num) (by norm_num),
   c4_threshold_monotone.2.2 (50/100) 90 100 (by norm_num)⟩

/-- C8: the color table resolves every name to the same code on every lookup
(lookup is a pure function of the name), every stored code is in the 0–255
range and renders in the wrapper syntax ESC [ 3 8 ; 5 ; N m whose parse
recovers exactly the stored code, and no two distinct names share a code. -/
theorem c8_color_table :
    (∀ name c₁ c₂, lookupColor name = some c₁ → lookupColor name = some c₂ → c₁ = c₂) ∧
    (∀ pr ∈ CAT_COLORS, pr.2 ≤ 255 ∧ wrapperParse (colorSeq pr.2) = some pr.2) ∧
    (CAT_COLORS.map Prod.fst).Nodup ∧ (CAT_COLORS.map Prod.snd).Nodup := by
  refine ⟨?_, by decide, by decide, by decide⟩
  intro name c₁ c₂ h1 h2
  rw [h1] at h2
  exact Option.some.inj h2

theorem c8_color_table_witness :
    (232 : Nat) = 232 ∧ (232 ≤ 255 ∧ wrapperParse (colorSeq 232) = some 232) :=
  ⟨c8_color_table.1 "black" 232 232 (by decide) (by decide),
   c8_color_table.2.1 ("black", 232) (by decide)⟩

/-! ### Totality of the constructed patterns -/

theorem map_some_isSome (o : Option Nat) : (o.map some).isSome = o.isSome := by
  cases o <;> rfl

theorem isSome_map' {α β : Type} (f : α → β) (o : Option α) :
    (Option.map f o).isSome = o.isSome := by
  cases o <;> rfl

theorem renderLineGo_isSome (dec : Nat → Char → Option (Option Nat))
    (hdec : ∀ j c, (dec j c).isSome = true) :
    ∀ (l : List Char) (j : Nat), (renderLineGo dec j l).isSome = true := by
  intro l
  induction l with
  | nil => intro j; rfl
  | cons c cs ih =>
    intro j
    rcases Option.isSome_iff_exists.mp (hdec j c) with ⟨o, ho⟩
    rcases Option.isSome_iff_exists.mp (ih (j + 1)) with ⟨rest, hrest⟩
    simp [renderLineGo, ho, hrest, pure]

theorem mapLinesGo_isSome (f : Nat → List Char → Option (List Char))
    (hf : ∀ i l, (f i l).isSome = true) :
    ∀ (ls : List (List Char)) (i : Nat), (mapLinesGo f i ls).isSome = true := by
  intro ls
  induction ls with
  | nil => intro i; rfl
  | cons l rest ih =>
    intro i
    rcases Option.isSome_iff_exists.mp (hf i l) with ⟨o, ho⟩
    rcases Option.isSome_iff_exists.mp (ih (i + 1)) with ⟨os, hos⟩
    simp [mapLinesGo, ho, hos, pure]

theorem lookup_calico_patch (i : Nat) : (lookupColor (calico_patch i)).isSome = true := by
  unfold calico_patch
  split_ifs <;> decide

theorem lookup_smoke_light (c : String) : (lookupColor (smoke_light c)).isSome = true := by
  unfold smoke_light
  split_ifs <;> decide

theorem lookup_lucy (rl dist clen : ℚ) : (lookupColor (lucyColorName rl dist clen)).isSome = true := by
  unfold lucyColorName
  split_ifs <;> decide

theorem lookup_cassandra (i : Nat) (rl dist clen : ℚ) :
    (lookupColor (cassandraColorName i rl dist clen)).isSome = true := by
  unfold cassandraColorName
  dsimp only
  split_ifs <;> decide

theorem lookup_persephone (rl dist clen : ℚ) :
    (lookupColor (persephoneColorName rl dist clen)).isSome = true := by
  unfold persephoneColorName
  split_ifs <;> decide

theorem applyPattern_isSome (p : PatternId) (hok : colorsOk p = true) (content : List Char) :
    (applyPattern p content).isSome = true := by
  cases p with
  | solid c =>
    have hc : (lookupColor c).isSome = true := by
      simpa [colorsOk, colorNamesOf] using hok
    simp [applyPattern, solid_pattern, isSome_map', hc]
  | bicolor c1 c2 =>
    have hc : (lookupColor c1).isSome = true ∧ (lookupColor c2).isSome = true := by
      simpa [colorsOk, colorNamesOf] using hok
    simp only [applyPattern, bicolor_pattern]
    rw [isSome_map']
    apply mapLinesGo_isSome
    intro i l
    apply renderLineGo_isSome
    intro j c
    unfold bicolor_dec
    split_ifs <;> simp [map_some_isSome, hc.1, hc.2]
  | tabby b s =>
    have hc : (lookupColor b).isSome = true ∧ (lookupColor s).isSome = true := by
      simpa [colorsOk, colorNamesOf] using hok
    simp only [applyPattern, tabby_pattern]
    rw [isSome_map']
    apply mapLinesGo_isSome
    intro i l
    rw [isSome_map']
    split_ifs <;> simp [hc.1, hc.2]
  | calico =>
    simp only [applyPattern, calico_pattern]
    rw [isSome_map']
    apply mapLinesGo_isSome
    intro i l
    apply renderLineGo_isSome
    intro j c
    unfold calico_dec
    split_ifs <;> simp [map_some_isSome, lookup_calico_patch] <;> decide
  | tortoiseshell =>
    simp only [applyPattern, tortoiseshell_pattern]
    rw [isSome_map']
    apply mapLinesGo_isSome
    intro i l
    apply renderLineGo_isSome
    intro j c
    unfold tortoiseshell_dec
    split_ifs <;> simp [map_some_isSome] <;> decide
  | colorpoint b pt =>
    have hc : (lookupColor b).isSome = true ∧ (lookupColor pt).isSome = true := by
      simpa [colorsOk, colorNamesOf] using hok
    simp only [applyPattern, colorpoint_pattern]
    rw [isSome_map']
    apply mapLinesGo_isSome
    intro i l
    rw [isSome_map']
    split_ifs <;> simp [hc.1, hc.2]
  | smoke c =>
    have hc : (lookupColor c).isSome = true := by
      have := hok
      simp [colorsOk, colorNamesOf] at this
      exact this.1
    simp only [applyPattern, smoke_pattern]
    rw [isSome_map']
    apply mapLinesGo_isSome
    intro i l
    apply renderLineGo_isSome
    intro j c₂
    unfold smoke_dec
    split_ifs <;> simp [map_some_isSome, hc, lookup_smoke_light]
  | tuxedo =>
    simp only [applyPattern, tuxedo_pattern]
    rw [isSome_map']
    apply mapLinesGo_isSome
    intro i l
    apply renderLineGo_isSome
    intro j c
    unfold tuxedo_dec
    split_ifs <;> simp [map_some_isSome] <;> decide
  | iggy c1 c2 =>
    have hc : (lookupColor c1).isSome = true ∧ (lookupColor c2).isSome = true := by
      simpa [colorsOk, colorNamesOf] using hok
    simp only [applyPattern, iggy_pattern]
    rw [isSome_map']
    apply mapLinesGo_isSome
    intro i l
    split_ifs
    · rfl
    · apply renderLineGo_isSome
      intro j c
      unfold iggy_dec
      split_ifs <;> simp [map_some_isSome, hc.1, hc.2]
  | lucy =>
    simp only [applyPattern, lucy_pattern]
    rw [isSome_map']
    apply mapLinesGo_isSome
    intro i l
    split_ifs
    · rfl
    · apply renderLineGo_isSome
      intro j c
      unfold lucy_dec
      split_ifs <;> simp [map_some_isSome, lookup_lucy]
  | cassandra =>
    simp only [applyPattern, cassandra_pattern]
    rw [isSome_map']
    apply mapLinesGo_isSome
    intro i l
    split_ifs
    · rfl
    · apply renderLineGo_isSome
      intro j c
      unfold cassandra_dec
      split_ifs <;> simp [map_some_isSome, lookup_cassandra]
  | persephone =>
    simp only [applyPattern, persephone_pattern]
    rw [isSome_map']
    apply mapLinesGo_isSome
    intro i l
    split_ifs
    · rfl
    · apply renderLineGo_isSome
      intro j c
      unfold persephone_dec
      split_ifs <;> simp [map_some_isSome, lookup_persephone]
  | jennycatto =>
    simp only [applyPattern, jennycatto_pattern]
    rw [isSome_map']
    apply mapLinesGo_isSome
    intro i l
    apply renderLineGo_isSome
    intro j c
    unfold jenny_dec
    split_ifs
    · rfl
    all_goals (repeat' split) <;> simp [map_some_isSome] <;> decide

/-- C9: no constructed pattern can fail with UnknownColor.  Every entry of
the random-selection registry, applied to any input, succeeds (the modelled
result is some, never the none that stands for a KeyError on the color
table), and likewise the explicitly selectable portraits: the black/white
tuxedo-style portrait, the gradient, silver tabby and silver/white portraits,
and the heart-overlay pattern. -/
theorem c9_no_unknown_color :
    (∀ e ∈ random_patterns, ∀ content : List Char,
      (applyPattern e.2 content).isSome = true) ∧
    (∀ content : List Char,
      (applyPattern (.iggy "black" "white") content).isSome = true ∧
      (applyPattern .lucy content).isSome = true ∧
      (applyPattern .cassandra content).isSome = true ∧
      (applyPattern .persephone content).isSome = true ∧
      (applyPattern .jennycatto content).isSome = true) := by
  constructor
  · intro e he content
    apply applyPattern_isSome
    have hall : random_patterns.all (fun e => colorsOk e.2) = true := by decide
    exact List.all_eq_true.mp hall e he
  · intro content
    exact ⟨applyPattern_isSome _ (by decide) content, applyPattern_isSome _ (by decide) content,
      applyPattern_isSome _ (by decide) content, applyPattern_isSome _ (by decide) content,
      applyPattern_isSome _ (by decide) content⟩

theorem c9_no_unknown_color_witness :
    (applyPattern (PatternId.solid "black") ['a']).isSome = true :=
  c9_no_unknown_color.1 ("solid_black", PatternId.solid "black") (by decide) ['a']
